import Mathlib

/-!
# cozychristmas: the tick engine of `src/cozychristmas.cpp`

A shallow embedding of the simulation core (`mod`, `init_game_state`,
`update_game_state`, `GameScene::update` with its direction input) and theorems
about it.

Modelling conventions

* `int` fields are mathematical integers.  The only arithmetic of the tick is
  one step up or down on a coordinate or on `num_bags`, exact in 32 bits unless
  the field sits at the very end of the `int` range; in a well-formed state the
  coordinates are in `0 .. 7` and `num_bags` counts distinct cells of the array.
* `Tile map[MAP_SIDE][MAP_SIDE]` is a function from coordinates to tiles.  Only
  the cells with both coordinates in `0 .. 7` exist; every access through a
  computed coordinate is bounds-checked by `map_get` / `map_set` and an access
  outside the array (undefined behaviour in C++) is reported as
  `Error.out_of_bounds`.
* `TileType` and `Direction` are closed enumerations, so the two
  `default: unreachable()` arms have no value that reaches them.
* `double` is replaced by exact rationals.
* `random_int(lo, hi)` is an input of the tick: `rnd lo hi` is the value the
  generator hands back for that call.  The two calls of one tick have
  different arguments, so every pair of outcomes is some `rnd`.
* `Mix_PlayChannel` only plays a sound and is left out.
-/

namespace CozyChristmas

/-! ## Constants and data types -/

def MAP_SIDE : Int := 8

def SPAWN_TIME_SEC_START : ℚ := 2

def SPAWN_TIME_DIFFICULTY_COEFFICIENT : ℚ := 1 / 100

def MIN_SPAWN_TIME_SEC : ℚ := 1 / 2

/-- The ways a call can fail: the `unreachable()` throw, and an array access
outside `map` or outside the `empty_tiles` vector. -/
inductive Error where
  | unreachable
  | out_of_bounds
  deriving DecidableEq, Repr

inductive TileType where
  | TILE_EMPTY
  | TILE_BAG
  | TILE_GIFT
  | TILE_HOUSE
  deriving DecidableEq, Repr

structure v2 where
  row : Int
  col : Int
  deriving DecidableEq, Repr

structure Tile where
  type : TileType
  prev_row : Int
  prev_col : Int
  deriving DecidableEq, Repr

/-- The constructor call `Tile{tile_type}`: both `previous_*` arguments take
their default value `0`. -/
def Tile.of_type (tile_type : TileType) : Tile :=
  ⟨tile_type, 0, 0⟩

/-- The default constructor `Tile()`, which is `Tile{TILE_EMPTY, -1, -1}`. -/
def Tile.default : Tile :=
  ⟨TileType.TILE_EMPTY, -1, -1⟩

inductive Direction where
  | DIRECTION_NORTH
  | DIRECTION_SOUTH
  | DIRECTION_WEST
  | DIRECTION_EAST
  deriving DecidableEq, Repr

open TileType Direction

/-- The function `mod`: `(a % b + b) % b` with the truncating `%` of C++. -/
def mod (a b : Int) : Int :=
  Int.tmod (Int.tmod a b + b) b

/-- The array `map`, read as `m row col`. -/
abbrev Grid := Int → Int → Tile

structure GameState where
  map : Grid
  santa_direction : Direction
  santa : v2
  num_bags : Int
  first_bag : v2
  last_bag : v2
  game_over : Bool
  exit : Bool
  spawn_time_sec : ℚ
  spawn_timer : ℚ

/-- Both indices name a cell of the `MAP_SIDE` by `MAP_SIDE` array. -/
def in_bounds (row col : Int) : Prop :=
  0 ≤ row ∧ row < MAP_SIDE ∧ 0 ≤ col ∧ col < MAP_SIDE

instance (row col : Int) : Decidable (in_bounds row col) := by
  unfold in_bounds; infer_instance

/-- A read `map[row][col]`. -/
def map_get (m : Grid) (row col : Int) : Except Error Tile :=
  if in_bounds row col then .ok (m row col) else .error Error.out_of_bounds

/-- The array after the assignment `map[row][col] = t`. -/
def Grid.write (m : Grid) (row col : Int) (t : Tile) : Grid :=
  fun r c => if r = row ∧ c = col then t else m r c

/-- An assignment `map[row][col] = t`. -/
def map_set (m : Grid) (row col : Int) (t : Tile) : Except Error Grid :=
  if in_bounds row col then .ok (m.write row col t) else .error Error.out_of_bounds

/-! ## `update_game_state` -/

/-- The first `switch` of `update_game_state`: santa steps one cell in
`santa_direction`, wrapping at the edges. -/
def move_santa (state : GameState) : GameState :=
  match state.santa_direction with
  | DIRECTION_NORTH =>
    { state with santa := { state.santa with row := mod (state.santa.row - 1) MAP_SIDE } }
  | DIRECTION_SOUTH =>
    { state with santa := { state.santa with row := mod (state.santa.row + 1) MAP_SIDE } }
  | DIRECTION_WEST =>
    { state with santa := { state.santa with col := mod (state.santa.col - 1) MAP_SIDE } }
  | DIRECTION_EAST =>
    { state with santa := { state.santa with col := mod (state.santa.col + 1) MAP_SIDE } }

/-- The second `switch` of `update_game_state`, on the type of the tile santa
has stepped on; `old_santa` is santa's cell before the step. -/
def tile_phase (old_santa : v2) (state : GameState) : Except Error GameState := do
  let here ← map_get state.map state.santa.row state.santa.col
  match here.type with
  | TILE_EMPTY =>
    if state.num_bags > 0 then do
      let m1 ← map_set state.map old_santa.row old_santa.col (Tile.of_type TILE_BAG)
      let old_first_bag := state.first_bag
      let m2 ← map_set m1 old_first_bag.row old_first_bag.col
        ⟨TILE_BAG, old_santa.row, old_santa.col⟩
      let last ← map_get m2 state.last_bag.row state.last_bag.col
      let previous_to_last_bag : v2 := ⟨last.prev_row, last.prev_col⟩
      let m3 ← map_set m2 state.last_bag.row state.last_bag.col (Tile.of_type TILE_EMPTY)
      pure { state with map := m3, first_bag := old_santa, last_bag := previous_to_last_bag }
    else
      pure state
  | TILE_GIFT => do
    let m1 ← map_set state.map state.santa.row state.santa.col (Tile.of_type TILE_EMPTY)
    let m2 ← map_set m1 old_santa.row old_santa.col (Tile.of_type TILE_BAG)
    if state.num_bags ≤ 0 then
      pure { state with
        map := m2, first_bag := old_santa, last_bag := old_santa,
        num_bags := state.num_bags + 1 }
    else do
      let m3 ← map_set m2 state.first_bag.row state.first_bag.col
        ⟨TILE_BAG, old_santa.row, old_santa.col⟩
      pure { state with map := m3, first_bag := old_santa, num_bags := state.num_bags + 1 }
  | TILE_BAG =>
    pure { state with game_over := true }
  | TILE_HOUSE =>
    if state.num_bags ≤ 0 then
      pure { state with game_over := true }
    else do
      let m1 ← map_set state.map state.santa.row state.santa.col (Tile.of_type TILE_EMPTY)
      let saved ← map_get m1 state.last_bag.row state.last_bag.col
      let m2 ← map_set m1 state.last_bag.row state.last_bag.col (Tile.of_type TILE_EMPTY)
      if state.num_bags > 1 then do
        let last_bag1 : v2 := ⟨saved.prev_row, saved.prev_col⟩
        let m3 ← map_set m2 old_santa.row old_santa.col (Tile.of_type TILE_BAG)
        let old_first_bag := state.first_bag
        let first_bag := old_santa
        let m4 ← map_set m3 old_first_bag.row old_first_bag.col
          ⟨TILE_BAG, first_bag.row, first_bag.col⟩
        let last_bag ← map_get m4 last_bag1.row last_bag1.col
        let m5 ← map_set m4 last_bag1.row last_bag1.col (Tile.of_type TILE_EMPTY)
        pure { state with
          map := m5, first_bag := first_bag,
          last_bag := ⟨last_bag.prev_row, last_bag.prev_col⟩,
          num_bags := state.num_bags - 1 }
      else
        pure { state with map := m2, num_bags := state.num_bags - 1 }

/-- The cells of the array in the order the two nested `for` loops of the
spawning logic visit them: row by row, each row from column 0 to 7. -/
def all_cells : List v2 :=
  (List.range 8).flatMap fun (row : Nat) =>
    (List.range 8).map fun (col : Nat) => v2.mk (Int.ofNat row) (Int.ofNat col)

/-- The vector `empty_tiles`: the cells of type `TILE_EMPTY` santa is not on. -/
def empty_tiles (state : GameState) : List v2 :=
  all_cells.filter fun p =>
    decide ((state.map p.row p.col).type = TILE_EMPTY) &&
      !(decide (state.santa.row = p.row) && decide (state.santa.col = p.col))

/-- The element access `empty_tiles[static_cast<size_t>(idx)]`. -/
def vector_at (v : List v2) (idx : Int) : Except Error v2 :=
  if 0 ≤ idx then
    match v[idx.toNat]? with
    | some p => .ok p
    | none => .error Error.out_of_bounds
  else .error Error.out_of_bounds

/-- The spawning logic: when there is an empty tile, one of them, picked by
`random_int(0, size - 1)`, becomes a gift or a house. -/
def spawn_tile (rnd : Int → Int → Int) (state : GameState) : Except Error Grid :=
  let empty := empty_tiles state
  if empty.length > 0 then do
    let size : Int := empty.length
    let idx := rnd 0 (size - 1)
    let random_tile ← vector_at empty idx
    map_set state.map random_tile.row random_tile.col
      (Tile.of_type (if rnd 1 100 ≤ 50 then TILE_GIFT else TILE_HOUSE))
  else
    pure state.map

/-- The last block of `update_game_state`: when the spawn timer has set off,
spawn, shorten the spawn time (not below the minimum) and reset the timer. -/
def spawn_phase (rnd : Int → Int → Int) (state : GameState) : Except Error GameState :=
  if state.spawn_timer ≥ state.spawn_time_sec then do
    let m ← spawn_tile rnd state
    let shorter := state.spawn_time_sec - SPAWN_TIME_DIFFICULTY_COEFFICIENT * state.spawn_time_sec
    pure { state with
      map := m, spawn_time_sec := max shorter MIN_SPAWN_TIME_SEC, spawn_timer := 0 }
  else
    pure state

/-- The function `update_game_state`. -/
def update_game_state (rnd : Int → Int → Int) (state : GameState) : Except Error GameState := do
  let old_santa := state.santa
  let moved := move_santa state
  let after_tile ← tile_phase old_santa moved
  spawn_phase rnd after_tile

/-! ## The direction input of `GameScene::update` -/

/-- The eight entries of the SDL keyboard state that `GameScene::update`
reads. -/
structure Keyboard where
  SDL_SCANCODE_W : Bool
  SDL_SCANCODE_UP : Bool
  SDL_SCANCODE_S : Bool
  SDL_SCANCODE_DOWN : Bool
  SDL_SCANCODE_A : Bool
  SDL_SCANCODE_LEFT : Bool
  SDL_SCANCODE_D : Bool
  SDL_SCANCODE_RIGHT : Bool

/-- The first block of `GameScene::update`: four `if`s in a row, each looking
at the direction the previous ones left. -/
def input_pass (keyboard : Keyboard) (m_game_state : GameState) : GameState :=
  let s1 :=
    if keyboard.SDL_SCANCODE_W || keyboard.SDL_SCANCODE_UP then
      if ¬(m_game_state.santa_direction = DIRECTION_SOUTH ∧ m_game_state.num_bags > 0) then
        { m_game_state with santa_direction := DIRECTION_NORTH }
      else m_game_state
    else m_game_state
  let s2 :=
    if keyboard.SDL_SCANCODE_S || keyboard.SDL_SCANCODE_DOWN then
      if ¬(s1.santa_direction = DIRECTION_NORTH ∧ s1.num_bags > 0) then
        { s1 with santa_direction := DIRECTION_SOUTH }
      else s1
    else s1
  let s3 :=
    if keyboard.SDL_SCANCODE_A || keyboard.SDL_SCANCODE_LEFT then
      if ¬(s2.santa_direction = DIRECTION_EAST ∧ s2.num_bags > 0) then
        { s2 with santa_direction := DIRECTION_WEST }
      else s2
    else s2
  if keyboard.SDL_SCANCODE_D || keyboard.SDL_SCANCODE_RIGHT then
    if ¬(s3.santa_direction = DIRECTION_WEST ∧ s3.num_bags > 0) then
      { s3 with santa_direction := DIRECTION_EAST }
    else s3
  else s3

/-! ## `GameScene::update` and a run of frames -/

def SEC_PER_TICK : ℚ := 1 / 2

/-- The members of `GameScene` that `update` works on: the game state it
refers to and its tick timer. -/
structure GameScene where
  m_game_state : GameState
  m_tick_timer : ℚ

/-- The method `GameScene::update(dt_sec)`: the direction input, a tick when
the tick timer is due, then both timers advance by `dt_sec`. -/
def GameScene.update (rnd : Int → Int → Int) (keyboard : Keyboard) (dt_sec : ℚ)
    (scene : GameScene) : Except Error GameScene := do
  let turned := input_pass keyboard scene.m_game_state
  let ticked ←
    if scene.m_tick_timer ≥ SEC_PER_TICK then do
      let after ← update_game_state rnd turned
      pure (GameScene.mk after 0)
    else
      pure (GameScene.mk turned scene.m_tick_timer)
  pure
    { m_game_state :=
        { ticked.m_game_state with spawn_timer := ticked.m_game_state.spawn_timer + dt_sec }
      m_tick_timer := ticked.m_tick_timer + dt_sec }

/-- What one frame feeds `GameScene::update`: the outcomes of `random_int`,
the keyboard state and the frame time. -/
structure Frame where
  rnd : Int → Int → Int
  keyboard : Keyboard
  dt_sec : ℚ

/-- One call of `GameScene::update` per frame, in order. -/
def run_frames : List Frame → GameScene → Except Error GameScene
  | [], scene => pure scene
  | f :: rest, scene => do
    let next ← GameScene.update f.rnd f.keyboard f.dt_sec scene
    run_frames rest next

/-! ## Notions the properties are stated with -/

/-- What `std::uniform_int_distribution` promises of `random_int`: the value
lies between `lo` and `hi`, both included. -/
def random_int_contract (rnd : Int → Int → Int) : Prop :=
  ∀ lo hi, lo ≤ hi → lo ≤ rnd lo hi ∧ rnd lo hi ≤ hi

/-- The direction exactly opposite to `d`. -/
def opposite : Direction → Direction
  | DIRECTION_NORTH => DIRECTION_SOUTH
  | DIRECTION_SOUTH => DIRECTION_NORTH
  | DIRECTION_WEST => DIRECTION_EAST
  | DIRECTION_EAST => DIRECTION_WEST

/-- Some key of direction `r` is held: W or Up for north, S or Down for south,
A or Left for west, D or Right for east. -/
def requests (keyboard : Keyboard) : Direction → Bool
  | DIRECTION_NORTH => keyboard.SDL_SCANCODE_W || keyboard.SDL_SCANCODE_UP
  | DIRECTION_SOUTH => keyboard.SDL_SCANCODE_S || keyboard.SDL_SCANCODE_DOWN
  | DIRECTION_WEST => keyboard.SDL_SCANCODE_A || keyboard.SDL_SCANCODE_LEFT
  | DIRECTION_EAST => keyboard.SDL_SCANCODE_D || keyboard.SDL_SCANCODE_RIGHT

/-- Direction `r`, and no other direction, is requested. -/
def single_request (keyboard : Keyboard) (r : Direction) : Prop :=
  ∀ d, requests keyboard d = true ↔ d = r

/-- The type of the tile santa steps on in this tick. -/
def target_type (state : GameState) : TileType :=
  (state.map (move_santa state).santa.row (move_santa state).santa.col).type

/-- The cell that the `prev_row`/`prev_col` fields of the tile at `p` name. -/
def prev_cell (m : Grid) (p : v2) : v2 :=
  ⟨(m p.row p.col).prev_row, (m p.row p.col).prev_col⟩

/-- The `n` cells reached from `p` by following `prev_row`/`prev_col`, `p`
first. -/
def chain_from (m : Grid) : Nat → v2 → List v2
  | 0, _ => []
  | n + 1, p => p :: chain_from m n (prev_cell m p)

/-- The chain of bags: `num_bags` cells, from `last_bag` on. -/
def chain (state : GameState) : List v2 :=
  chain_from state.map state.num_bags.toNat state.last_bag

/-- The cells of the array that hold a `TILE_BAG`. -/
def bag_cells (m : Grid) : Finset v2 :=
  all_cells.toFinset.filter fun p => (m p.row p.col).type = TILE_BAG

/-- The chain invariant: `num_bags` is not negative; the cells of the chain
are pairwise distinct, lie in the array and hold a bag; every bag of the array
is on the chain; and the chain ends at `first_bag`. -/
def chain_inv (state : GameState) : Prop :=
  0 ≤ state.num_bags ∧
  (chain state).Nodup ∧
  (∀ p ∈ chain state, in_bounds p.row p.col ∧ (state.map p.row p.col).type = TILE_BAG) ∧
  (∀ row col, in_bounds row col → (state.map row col).type = TILE_BAG →
    (⟨row, col⟩ : v2) ∈ chain state) ∧
  (0 < state.num_bags → (chain state).getLast? = some state.first_bag)

/-- A well-formed state: santa is in the array, not on a bag, and the chain
invariant holds. -/
def well_formed (state : GameState) : Prop :=
  in_bounds state.santa.row state.santa.col ∧
  (state.map state.santa.row state.santa.col).type ≠ TILE_BAG ∧
  chain_inv state

/-! ## Concrete states -/

/-- The generator that always hands back `lo`. -/
def rnd_lo : Int → Int → Int :=
  fun lo _ => lo

/-- The array of a value-initialised `GameState{}`: every tile is `Tile()`. -/
def empty_map : Grid :=
  fun _ _ => Tile.default

/-- Santa at (0,1) facing east with one bag behind him at (0,0); the cell
(0,2) ahead is empty and the spawn timer has not set off. -/
def state_one_bag : GameState where
  map := empty_map.write 0 0 (Tile.of_type TILE_BAG)
  santa_direction := DIRECTION_EAST
  santa := ⟨0, 1⟩
  num_bags := 1
  first_bag := ⟨0, 0⟩
  last_bag := ⟨0, 0⟩
  game_over := false
  exit := false
  spawn_time_sec := SPAWN_TIME_SEC_START
  spawn_timer := 0

/-- The start of a round as the scenario of the specification has it: santa at
(0,0) facing east, no bags, a gift on (0,1); the spawn timer has not set off. -/
def state_gift_ahead : GameState where
  map := empty_map.write 0 1 (Tile.of_type TILE_GIFT)
  santa_direction := DIRECTION_EAST
  santa := ⟨0, 0⟩
  num_bags := 0
  first_bag := ⟨0, 0⟩
  last_bag := ⟨0, 0⟩
  game_over := false
  exit := false
  spawn_time_sec := SPAWN_TIME_SEC_START
  spawn_timer := 0

/-- The third step of the scenario of the specification: santa at (0,2) facing
east with one bag behind him at (0,1), a house on (0,3). -/
def state_house_one_bag : GameState where
  map := (empty_map.write 0 1 (Tile.of_type TILE_BAG)).write 0 3 (Tile.of_type TILE_HOUSE)
  santa_direction := DIRECTION_EAST
  santa := ⟨0, 2⟩
  num_bags := 1
  first_bag := ⟨0, 1⟩
  last_bag := ⟨0, 1⟩
  game_over := false
  exit := false
  spawn_time_sec := SPAWN_TIME_SEC_START
  spawn_timer := 0

/-- Santa at (0,3) facing east with three bags behind him, the oldest at
(0,0), then (0,1), the newest at (0,2); a house on (0,4). -/
def state_house_three_bags : GameState where
  map := (((empty_map.write 0 0 ⟨TILE_BAG, 0, 1⟩).write 0 1 ⟨TILE_BAG, 0, 2⟩).write 0 2
    (Tile.of_type TILE_BAG)).write 0 4 (Tile.of_type TILE_HOUSE)
  santa_direction := DIRECTION_EAST
  santa := ⟨0, 3⟩
  num_bags := 3
  first_bag := ⟨0, 2⟩
  last_bag := ⟨0, 0⟩
  game_over := false
  exit := false
  spawn_time_sec := SPAWN_TIME_SEC_START
  spawn_timer := 0

/-- Santa at (1,1) facing north after walking (0,1), (0,2), (1,2), (1,1) with
three bags trailing: the oldest bag lies on (0,1), the cell ahead of him.  The
spawn timer has set off. -/
def state_bag_ahead : GameState where
  map := ((empty_map.write 0 1 ⟨TILE_BAG, 0, 2⟩).write 0 2 ⟨TILE_BAG, 1, 2⟩).write 1 2
    (Tile.of_type TILE_BAG)
  santa_direction := DIRECTION_NORTH
  santa := ⟨1, 1⟩
  num_bags := 3
  first_bag := ⟨1, 2⟩
  last_bag := ⟨0, 1⟩
  game_over := false
  exit := false
  spawn_time_sec := SPAWN_TIME_SEC_START
  spawn_timer := 2

/-- Santa at (0,2) facing east without a bag, a house on (0,3); the spawn timer
has not set off. -/
def state_house_no_bag : GameState where
  map := empty_map.write 0 3 (Tile.of_type TILE_HOUSE)
  santa_direction := DIRECTION_EAST
  santa := ⟨0, 2⟩
  num_bags := 0
  first_bag := ⟨0, 0⟩
  last_bag := ⟨0, 0⟩
  game_over := false
  exit := false
  spawn_time_sec := SPAWN_TIME_SEC_START
  spawn_timer := 0

/-- The keyboard with no key held. -/
def no_keys : Keyboard :=
  ⟨false, false, false, false, false, false, false, false⟩

/-- The state `GameState{}` that `entry` creates: value-initialised members,
except for the two that have a default member initialiser. -/
def default_state : GameState where
  map := empty_map
  santa_direction := DIRECTION_NORTH
  santa := ⟨0, 0⟩
  num_bags := 0
  first_bag := ⟨0, 0⟩
  last_bag := ⟨0, 0⟩
  game_over := true
  exit := false
  spawn_time_sec := SPAWN_TIME_SEC_START
  spawn_timer := 0

/-- The generator that hands back `i` whenever the range allows it, and `lo`
otherwise. -/
def rnd_pick (i : Int) : Int → Int → Int :=
  fun lo hi => if lo ≤ i ∧ i ≤ hi then i else lo

/-- A state without any empty tile: every cell holds a house.  The spawn timer
has set off. -/
def state_full_grid : GameState where
  map := fun _ _ => Tile.of_type TILE_HOUSE
  santa_direction := DIRECTION_NORTH
  santa := ⟨0, 0⟩
  num_bags := 0
  first_bag := ⟨0, 0⟩
  last_bag := ⟨0, 0⟩
  game_over := false
  exit := false
  spawn_time_sec := SPAWN_TIME_SEC_START
  spawn_timer := 2

/-- The function `init_game_state`: its body is empty, it leaves the state it
is handed as it is. -/
def init_game_state (state : GameState) : GameState :=
  state

/-- Santa at (0,2) facing east with one bag behind him at (0,1), a gift on
(0,3); the spawn timer has not set off. -/
def state_gift_one_bag : GameState where
  map := (empty_map.write 0 1 (Tile.of_type TILE_BAG)).write 0 3 (Tile.of_type TILE_GIFT)
  santa_direction := DIRECTION_EAST
  santa := ⟨0, 2⟩
  num_bags := 1
  first_bag := ⟨0, 1⟩
  last_bag := ⟨0, 1⟩
  game_over := false
  exit := false
  spawn_time_sec := SPAWN_TIME_SEC_START
  spawn_timer := 0

/-- Santa at (0,1) facing west, having just left (0,2), where his one bag now
lies; the spawn timer has not set off. -/
def state_facing_west : GameState where
  map := empty_map.write 0 2 (Tile.of_type TILE_BAG)
  santa_direction := DIRECTION_WEST
  santa := ⟨0, 1⟩
  num_bags := 1
  first_bag := ⟨0, 2⟩
  last_bag := ⟨0, 2⟩
  game_over := false
  exit := false
  spawn_time_sec := SPAWN_TIME_SEC_START
  spawn_timer := 0

/-- The keys W and D held together. -/
def keys_w_d : Keyboard :=
  { no_keys with SDL_SCANCODE_W := true, SDL_SCANCODE_D := true }

/-- A state in the middle of a round: santa at (0,1) facing east with one bag
behind him at (0,0), after one spawn has shortened the spawn time to 99/50. -/
def state_mid_round : GameState where
  map := empty_map.write 0 0 (Tile.of_type TILE_BAG)
  santa_direction := DIRECTION_EAST
  santa := ⟨0, 1⟩
  num_bags := 1
  first_bag := ⟨0, 0⟩
  last_bag := ⟨0, 0⟩
  game_over := false
  exit := false
  spawn_time_sec := 99 / 50
  spawn_timer := 1 / 4

/-! # Theorems -/

/-! ## Arithmetic of `mod` and the move -/

theorem tmod_eight_gt (a : Int) : -8 < Int.tmod a 8 := by
  cases a with
  | ofNat n =>
    have := Int.tmod_nonneg (a := Int.ofNat n) 8 (Int.ofNat_nonneg n)
    omega
  | negSucc n =>
    have h : Int.tmod (Int.negSucc n) 8 = -(((n + 1) % 8 : Nat) : Int) := rfl
    rw [h]
    omega

theorem mod_eq_emod (a : Int) : mod a MAP_SIDE = a % 8 := by
  unfold mod MAP_SIDE
  have h1 : Int.tmod a 8 < 8 := Int.tmod_lt_of_pos a (by decide)
  have h2 := tmod_eight_gt a
  have h3 := Int.tmod_add_tdiv a 8
  rw [Int.tmod_eq_emod (by omega) (by decide)]
  omega

theorem in_bounds_iff (row col : Int) :
    in_bounds row col ↔ 0 ≤ row ∧ row < 8 ∧ 0 ≤ col ∧ col < 8 := by
  simp [in_bounds, MAP_SIDE]

theorem move_santa_map (s : GameState) : (move_santa s).map = s.map := by
  unfold move_santa; cases s.santa_direction <;> rfl

theorem move_santa_frame (s : GameState) :
    (move_santa s).num_bags = s.num_bags ∧ (move_santa s).first_bag = s.first_bag ∧
    (move_santa s).last_bag = s.last_bag ∧ (move_santa s).game_over = s.game_over ∧
    (move_santa s).spawn_timer = s.spawn_timer ∧
    (move_santa s).spawn_time_sec = s.spawn_time_sec ∧
    (move_santa s).santa_direction = s.santa_direction := by
  unfold move_santa; cases s.santa_direction <;> simp

theorem move_santa_in_bounds (s : GameState) (h : in_bounds s.santa.row s.santa.col) :
    in_bounds (move_santa s).santa.row (move_santa s).santa.col := by
  rw [in_bounds_iff] at *
  unfold move_santa
  cases s.santa_direction <;> simp only [mod_eq_emod] <;> omega

theorem move_santa_ne (s : GameState) :
    ¬((move_santa s).santa.row = s.santa.row ∧ (move_santa s).santa.col = s.santa.col) := by
  unfold move_santa
  cases s.santa_direction <;> simp only [mod_eq_emod] <;> omega

/-! ## Array accesses -/

theorem map_get_ok (m : Grid) (row col : Int) (h : in_bounds row col) :
    map_get m row col = .ok (m row col) := by
  simp [map_get, h]

theorem map_set_ok (m : Grid) (row col : Int) (t : Tile) (h : in_bounds row col) :
    map_set m row col t = .ok (m.write row col t) := by
  simp [map_set, h]

theorem mem_all_cells (p : v2) : p ∈ all_cells ↔ in_bounds p.row p.col := by
  rw [in_bounds_iff]
  unfold all_cells
  simp only [List.mem_flatMap, List.mem_map, List.mem_range]
  constructor
  · rintro ⟨r, hr, c, hc, rfl⟩
    simp only [Int.ofNat_eq_coe]
    omega
  · rintro ⟨h1, h2, h3, h4⟩
    refine ⟨p.row.toNat, by omega, p.col.toNat, by omega, ?_⟩
    cases p with
    | mk row col =>
      simp only at h1 h2 h3 h4 ⊢
      simp only [Int.ofNat_eq_coe]
      rw [Int.toNat_of_nonneg h1, Int.toNat_of_nonneg h3]

theorem mem_bag_cells (m : Grid) (p : v2) :
    p ∈ bag_cells m ↔ in_bounds p.row p.col ∧ (m p.row p.col).type = TILE_BAG := by
  simp [bag_cells, mem_all_cells]

theorem mem_empty_tiles (s : GameState) (p : v2) :
    p ∈ empty_tiles s ↔ in_bounds p.row p.col ∧ (s.map p.row p.col).type = TILE_EMPTY ∧
      ¬(s.santa.row = p.row ∧ s.santa.col = p.col) := by
  simp only [empty_tiles, List.mem_filter, mem_all_cells, Bool.and_eq_true, Bool.not_eq_true',
    decide_eq_true_eq, Bool.and_eq_false_imp, decide_eq_false_iff_not, not_and]

/-! ## The spawn phase -/

theorem vector_at_ok (v : List v2) (idx : Int) (h0 : 0 ≤ idx) (h1 : idx < v.length) :
    ∃ p, p ∈ v ∧ v[idx.toNat]? = some p ∧ vector_at v idx = .ok p := by
  have hlt : idx.toNat < v.length := by omega
  refine ⟨v[idx.toNat], List.getElem_mem _, List.getElem?_eq_getElem hlt, ?_⟩
  simp [vector_at, h0, List.getElem?_eq_getElem hlt]

theorem spawn_tile_spec (rnd : Int → Int → Int) (hr : random_int_contract rnd) (s : GameState) :
    (empty_tiles s = [] ∧ spawn_tile rnd s = .ok s.map) ∨
    ∃ p, p ∈ empty_tiles s ∧
      (empty_tiles s)[(rnd 0 ((empty_tiles s).length - 1)).toNat]? = some p ∧
      spawn_tile rnd s = .ok (s.map.write p.row p.col
        (Tile.of_type (if rnd 1 100 ≤ 50 then TILE_GIFT else TILE_HOUSE))) := by
  by_cases he : empty_tiles s = []
  · left
    simp [spawn_tile, he, pure, Except.pure]
  · right
    have hlen : 0 < (empty_tiles s).length := List.length_pos.mpr he
    obtain ⟨h0, h1⟩ := hr 0 (((empty_tiles s).length : Int) - 1) (by omega)
    obtain ⟨p, hp, hget, hat⟩ := vector_at_ok (empty_tiles s) _ h0 (by omega)
    refine ⟨p, hp, hget, ?_⟩
    have hb : in_bounds p.row p.col := ((mem_empty_tiles s p).mp hp).1
    simp [spawn_tile, hlen, hat, bind, Except.bind, map_set_ok _ _ _ _ hb]

theorem spawn_phase_spec (rnd : Int → Int → Int) (hr : random_int_contract rnd) (s : GameState) :
    ∃ s', spawn_phase rnd s = .ok s' ∧ s'.santa = s.santa ∧ s'.num_bags = s.num_bags ∧
      s'.first_bag = s.first_bag ∧ s'.last_bag = s.last_bag ∧ s'.game_over = s.game_over ∧
      ∀ row col, s'.map row col = s.map row col ∨
        ((s.map row col).type = TILE_EMPTY ∧ ¬(s.santa.row = row ∧ s.santa.col = col) ∧
          (s'.map row col = Tile.of_type TILE_GIFT ∨ s'.map row col = Tile.of_type TILE_HOUSE)) := by
  unfold spawn_phase
  by_cases ht : s.spawn_timer ≥ s.spawn_time_sec
  · rcases spawn_tile_spec rnd hr s with ⟨_, h⟩ | ⟨p, hp, _, h⟩
    · simp [ht, h, bind, Except.bind, pure, Except.pure]
    · simp only [ht, h, bind, Except.bind, pure, Except.pure, if_true]
      refine ⟨_, rfl, rfl, rfl, rfl, rfl, rfl, ?_⟩
      intro row col
      obtain ⟨_, he, hs⟩ := (mem_empty_tiles s p).mp hp
      by_cases hc : row = p.row ∧ col = p.col
      · right
        obtain ⟨rfl, rfl⟩ := hc
        refine ⟨he, hs, ?_⟩
        simp only [Grid.write, and_self, if_true]
        split <;> simp
      · left
        simp [Grid.write, hc]
  · simp [ht, pure, Except.pure]

theorem spawn_keeps_bags (m m' : Grid)
    (h : ∀ row col, m' row col = m row col ∨
        ((m row col).type = TILE_EMPTY ∧
          (m' row col = Tile.of_type TILE_GIFT ∨ m' row col = Tile.of_type TILE_HOUSE))) :
    bag_cells m' = bag_cells m := by
  ext p
  rw [mem_bag_cells, mem_bag_cells]
  rcases h p.row p.col with h1 | ⟨h1, h2 | h2⟩
  · rw [h1]
  · simp [h1, h2, Tile.of_type]
  · simp [h1, h2, Tile.of_type]

/-! ## What the chain invariant gives -/

theorem chain_unfold (s : GameState) (h : 0 < s.num_bags) :
    chain s = s.last_bag ::
      chain_from s.map (s.num_bags.toNat - 1) (prev_cell s.map s.last_bag) := by
  unfold chain
  obtain ⟨n, hn⟩ : ∃ n, s.num_bags.toNat = n + 1 := ⟨s.num_bags.toNat - 1, by omega⟩
  rw [hn]
  rfl

theorem chain_from_succ (m : Grid) (n : Nat) (p : v2) (h : 0 < n) :
    chain_from m n p = p :: chain_from m (n - 1) (prev_cell m p) := by
  obtain ⟨k, rfl⟩ : ∃ k, n = k + 1 := ⟨n - 1, by omega⟩
  rfl

theorem chain_ends (s : GameState) (hc : chain_inv s) (h : 0 < s.num_bags) :
    (in_bounds s.last_bag.row s.last_bag.col ∧
      (s.map s.last_bag.row s.last_bag.col).type = TILE_BAG) ∧
    (in_bounds s.first_bag.row s.first_bag.col ∧
      (s.map s.first_bag.row s.first_bag.col).type = TILE_BAG) := by
  obtain ⟨_, _, hmem, _, hlast⟩ := hc
  constructor
  · apply hmem
    rw [chain_unfold s h]
    exact List.mem_cons_self _ _
  · exact hmem _ (List.mem_of_getLast?_eq_some (hlast h))

theorem chain_one (s : GameState) (hc : chain_inv s) (h : s.num_bags = 1) :
    s.first_bag = s.last_bag := by
  obtain ⟨_, _, _, _, hlast⟩ := hc
  have h1 := hlast (by omega)
  rw [chain_unfold s (by omega)] at h1
  have : s.num_bags.toNat - 1 = 0 := by omega
  rw [this] at h1
  simpa [chain_from] using h1.symm

theorem chain_two (s : GameState) (hc : chain_inv s) (h : 2 ≤ s.num_bags) :
    (in_bounds (prev_cell s.map s.last_bag).row (prev_cell s.map s.last_bag).col ∧
      (s.map (prev_cell s.map s.last_bag).row (prev_cell s.map s.last_bag).col).type = TILE_BAG) ∧
    prev_cell s.map s.last_bag ≠ s.last_bag ∧ s.first_bag ≠ s.last_bag ∧
    (s.num_bags = 2 → s.first_bag = prev_cell s.map s.last_bag) ∧
    (3 ≤ s.num_bags → s.first_bag ≠ prev_cell s.map s.last_bag ∧
      in_bounds (prev_cell s.map (prev_cell s.map s.last_bag)).row
        (prev_cell s.map (prev_cell s.map s.last_bag)).col) := by
  obtain ⟨_, hnd, hmem, _, hlast⟩ := hc
  have h1 := hlast (by omega)
  have hch := chain_unfold s (by omega)
  rw [chain_from_succ _ _ _ (by omega)] at hch
  rw [hch] at h1 hnd hmem
  rw [List.getLast?_cons_cons] at h1
  have hnd2 := List.nodup_cons.mp hnd
  have hnd3 := List.nodup_cons.mp hnd2.2
  refine ⟨hmem _ (by simp), ?_, ?_, ?_, ?_⟩
  · intro he
    exact hnd2.1 (by rw [he]; simp)
  · intro he
    have := List.mem_of_getLast?_eq_some h1
    rw [he] at this
    exact hnd2.1 this
  · intro h2
    have : s.num_bags.toNat - 1 - 1 = 0 := by omega
    rw [this] at h1
    simpa [chain_from] using h1.symm
  · intro h3
    rw [chain_from_succ _ _ _ (by omega)] at h1 hmem hnd3
    rw [List.getLast?_cons_cons] at h1
    constructor
    · intro he
      have := List.mem_of_getLast?_eq_some h1
      rw [he] at this
      exact hnd3.1 this
    · exact (hmem _ (by simp)).1

theorem bag_cells_eq_chain (s : GameState) (hc : chain_inv s) :
    bag_cells s.map = (chain s).toFinset := by
  obtain ⟨_, _, hmem, hall, _⟩ := hc
  ext p
  rw [mem_bag_cells, List.mem_toFinset]
  constructor
  · rintro ⟨h1, h2⟩
    exact hall p.row p.col h1 h2
  · exact hmem p

theorem chain_length (s : GameState) : ((chain s).length : Int) = max s.num_bags 0 := by
  have : ∀ m n p, (chain_from m n p).length = n := by
    intro m n
    induction n with
    | zero => intro p; rfl
    | succ k ih => intro p; simp [chain_from, ih]
  unfold chain
  rw [this]
  omega

theorem bag_cells_card (s : GameState) (hc : chain_inv s) :
    ((bag_cells s.map).card : Int) = s.num_bags := by
  rw [bag_cells_eq_chain s hc, List.toFinset_card_of_nodup hc.2.1, chain_length]
  have := hc.1
  omega

/-! ## Stepping on an empty tile -/

theorem v2_eq_iff (p q : v2) : p = q ↔ p.row = q.row ∧ p.col = q.col := by
  cases p; cases q; simp

theorem target_in_bounds (s : GameState) (h : in_bounds s.santa.row s.santa.col) :
    map_get (move_santa s).map (move_santa s).santa.row (move_santa s).santa.col =
      .ok (s.map (move_santa s).santa.row (move_santa s).santa.col) := by
  rw [map_get_ok _ _ _ (move_santa_in_bounds s h), move_santa_map]

theorem tile_empty_ok (s : GameState) (hw : well_formed s) (hL : 0 < s.num_bags)
    (ht : target_type s = TILE_EMPTY) :
    tile_phase s.santa (move_santa s) = .ok
      { move_santa s with
        map := ((s.map.write s.santa.row s.santa.col (Tile.of_type TILE_BAG)).write
          s.first_bag.row s.first_bag.col ⟨TILE_BAG, s.santa.row, s.santa.col⟩).write
          s.last_bag.row s.last_bag.col (Tile.of_type TILE_EMPTY)
        first_bag := s.santa
        last_bag := prev_cell ((s.map.write s.santa.row s.santa.col (Tile.of_type TILE_BAG)).write
          s.first_bag.row s.first_bag.col ⟨TILE_BAG, s.santa.row, s.santa.col⟩) s.last_bag } := by
  obtain ⟨hsb, _, hc⟩ := hw
  obtain ⟨⟨hlb, _⟩, ⟨hfb, _⟩⟩ := chain_ends s hc hL
  obtain ⟨hnb, hfirst, hlast, _⟩ := move_santa_frame s
  unfold tile_phase
  rw [target_in_bounds s hsb]
  unfold target_type at ht
  simp only [bind, Except.bind, ht, hnb, hfirst, hlast, hL, gt_iff_lt, if_true, move_santa_map,
    map_set_ok _ _ _ _ hsb, map_set_ok _ _ _ _ hfb, map_set_ok _ _ _ _ hlb,
    map_get_ok _ _ _ hlb, pure, Except.pure, prev_cell]

theorem write_at (m : Grid) (q : v2) (t : Tile) (p : v2) :
    (m.write q.row q.col t) p.row p.col = if p = q then t else m p.row p.col := by
  simp only [Grid.write, v2_eq_iff]

theorem ne_of_type_ne (m : Grid) (p q : v2) (hp : (m p.row p.col).type = TILE_BAG)
    (hq : (m q.row q.col).type ≠ TILE_BAG) : p ≠ q := by
  rintro rfl
  exact hq hp

theorem bag_cells_empty_shift (s : GameState) (hw : well_formed s) (hL : 0 < s.num_bags) :
    bag_cells (((s.map.write s.santa.row s.santa.col (Tile.of_type TILE_BAG)).write
          s.first_bag.row s.first_bag.col ⟨TILE_BAG, s.santa.row, s.santa.col⟩).write
          s.last_bag.row s.last_bag.col (Tile.of_type TILE_EMPTY)) =
      insert s.santa ((bag_cells s.map).erase s.last_bag) := by
  obtain ⟨hsb, hsn, hc⟩ := hw
  obtain ⟨⟨hlb, hlt⟩, ⟨hfb, hft⟩⟩ := chain_ends s hc hL
  have hls := ne_of_type_ne s.map _ _ hlt hsn
  have hfs := ne_of_type_ne s.map _ _ hft hsn
  ext p
  simp only [mem_bag_cells, Finset.mem_insert, Finset.mem_erase, write_at, ne_eq]
  by_cases h1 : p = s.last_bag
  · subst h1
    simp [hls, Tile.of_type]
  · by_cases h2 : p = s.first_bag
    · subst h2
      simp [h1, hfs, hfb, hft]
    · by_cases h3 : p = s.santa
      · subst h3
        simp [h1, h2, hsb, Tile.of_type]
      · simp [h1, h2, h3]

/-! ## The tile switch followed by the spawn phase -/

theorem update_of_tile (rnd : Int → Int → Int) (hr : random_int_contract rnd)
    (s s2 : GameState) (h : tile_phase s.santa (move_santa s) = .ok s2) :
    ∃ s', update_game_state rnd s = .ok s' ∧ spawn_phase rnd s2 = .ok s' ∧
      s'.santa = s2.santa ∧ s'.num_bags = s2.num_bags ∧
      s'.first_bag = s2.first_bag ∧ s'.last_bag = s2.last_bag ∧ s'.game_over = s2.game_over ∧
      ∀ row col, s'.map row col = s2.map row col ∨
        ((s2.map row col).type = TILE_EMPTY ∧ ¬(s2.santa.row = row ∧ s2.santa.col = col) ∧
          (s'.map row col = Tile.of_type TILE_GIFT ∨
            s'.map row col = Tile.of_type TILE_HOUSE)) := by
  obtain ⟨s', h1, h2⟩ := spawn_phase_spec rnd hr s2
  refine ⟨s', ?_, h1, h2⟩
  unfold update_game_state
  simp only [h, bind, Except.bind, h1]

theorem rnd_lo_contract : random_int_contract rnd_lo := by
  intro lo hi h
  exact ⟨le_refl _, h⟩

theorem state_one_bag_wf : well_formed state_one_bag := by
  refine ⟨by decide, by decide, by decide, ?_, ?_, ?_, ?_⟩
  · decide
  · intro p hp
    have : p = ⟨0, 0⟩ := by simpa [chain, chain_from, state_one_bag] using hp
    subst this
    decide
  · intro row col _ h
    simp only [state_one_bag, Grid.write, empty_map, Tile.default] at h
    split at h
    · rename_i h2
      simp [chain, chain_from, state_one_bag, h2.1, h2.2]
    · simp at h
  · intro _
    rfl

/-- C1. A tick onto a `TILE_EMPTY` cell with `num_bags = L > 0`, from a
well-formed state and for any random draws, completes; `num_bags` is still `L`,
`first_bag` is the cell santa left, and the `TILE_BAG` cells are the former
ones with the old `last_bag` cell removed and the cell santa left added. -/
theorem empty_tile_shifts_chain (rnd : Int → Int → Int) (hr : random_int_contract rnd)
    (s : GameState) (hw : well_formed s) (hL : 0 < s.num_bags)
    (ht : target_type s = TILE_EMPTY) :
    ∃ s', update_game_state rnd s = .ok s' ∧ s'.num_bags = s.num_bags ∧
      s'.first_bag = s.santa ∧
      bag_cells s'.map = insert s.santa ((bag_cells s.map).erase s.last_bag) := by
  obtain ⟨s', h1, _, _, h3, h4, _, _, h7⟩ :=
    update_of_tile rnd hr s _ (tile_empty_ok s hw hL ht)
  refine ⟨s', h1, ?_, h4, ?_⟩
  · rw [h3]
    exact (move_santa_frame s).1
  · rw [← bag_cells_empty_shift s hw hL]
    apply spawn_keeps_bags
    intro row col
    rcases h7 row col with h | ⟨h, _, h'⟩
    · exact Or.inl h
    · exact Or.inr ⟨h, h'⟩

theorem empty_tile_shifts_chain_witness :
    well_formed state_one_bag ∧ 0 < state_one_bag.num_bags ∧
    target_type state_one_bag = TILE_EMPTY ∧
    ∃ s', update_game_state rnd_lo state_one_bag = .ok s' ∧ s'.num_bags = 1 ∧
      s'.first_bag = ⟨0, 1⟩ ∧
      bag_cells s'.map =
        insert ⟨0, 1⟩ ((bag_cells state_one_bag.map).erase ⟨0, 0⟩) :=
  ⟨state_one_bag_wf, by decide, by decide,
    empty_tile_shifts_chain rnd_lo rnd_lo_contract state_one_bag state_one_bag_wf
      (by decide) (by decide)⟩

/-! ## Stepping on a gift -/

theorem tile_gift_ok (s : GameState) (hw : well_formed s) (ht : target_type s = TILE_GIFT) :
    tile_phase s.santa (move_santa s) = .ok
      (if s.num_bags ≤ 0 then
        { move_santa s with
          map := (s.map.write (move_santa s).santa.row (move_santa s).santa.col
            (Tile.of_type TILE_EMPTY)).write s.santa.row s.santa.col (Tile.of_type TILE_BAG)
          first_bag := s.santa
          last_bag := s.santa
          num_bags := s.num_bags + 1 }
      else
        { move_santa s with
          map := ((s.map.write (move_santa s).santa.row (move_santa s).santa.col
            (Tile.of_type TILE_EMPTY)).write s.santa.row s.santa.col
            (Tile.of_type TILE_BAG)).write s.first_bag.row s.first_bag.col
            ⟨TILE_BAG, s.santa.row, s.santa.col⟩
          first_bag := s.santa
          num_bags := s.num_bags + 1 }) := by
  obtain ⟨hsb, _, hc⟩ := hw
  obtain ⟨hnb, hfirst, hlast, _⟩ := move_santa_frame s
  have htb := move_santa_in_bounds s hsb
  unfold tile_phase
  rw [target_in_bounds s hsb]
  unfold target_type at ht
  by_cases h0 : s.num_bags ≤ 0
  · simp only [bind, Except.bind, ht, hnb, h0, if_true, move_santa_map,
      map_set_ok _ _ _ _ hsb, map_set_ok _ _ _ _ htb, pure, Except.pure]
  · obtain ⟨_, ⟨hfb, _⟩⟩ := chain_ends s hc (by omega)
    simp only [bind, Except.bind, ht, hnb, hfirst, h0, if_false, move_santa_map,
      map_set_ok _ _ _ _ hsb, map_set_ok _ _ _ _ htb, map_set_ok _ _ _ _ hfb, pure, Except.pure]

theorem move_santa_ne_v2 (s : GameState) : (move_santa s).santa ≠ s.santa := by
  intro h
  exact move_santa_ne s ((v2_eq_iff _ _).mp h)

theorem spawn_keeps_santa_cell (s2 s' : GameState) (hs : s'.santa = s2.santa)
    (h : ∀ row col, s'.map row col = s2.map row col ∨
        ((s2.map row col).type = TILE_EMPTY ∧ ¬(s2.santa.row = row ∧ s2.santa.col = col) ∧
          (s'.map row col = Tile.of_type TILE_GIFT ∨
            s'.map row col = Tile.of_type TILE_HOUSE))) :
    s'.map s'.santa.row s'.santa.col = s2.map s2.santa.row s2.santa.col := by
  rw [hs]
  rcases h s2.santa.row s2.santa.col with h1 | ⟨_, h1, _⟩
  · exact h1
  · exact absurd ⟨rfl, rfl⟩ h1

theorem spawn_keeps_non_empty (s2 s' : GameState) (row col : Int)
    (hne : (s2.map row col).type ≠ TILE_EMPTY)
    (h : ∀ row col, s'.map row col = s2.map row col ∨
        ((s2.map row col).type = TILE_EMPTY ∧ ¬(s2.santa.row = row ∧ s2.santa.col = col) ∧
          (s'.map row col = Tile.of_type TILE_GIFT ∨
            s'.map row col = Tile.of_type TILE_HOUSE))) :
    s'.map row col = s2.map row col := by
  rcases h row col with h1 | ⟨h1, _⟩
  · exact h1
  · exact absurd h1 hne

theorem state_gift_ahead_wf : well_formed state_gift_ahead := by
  refine ⟨by decide, by decide, by decide, ?_, ?_, ?_, ?_⟩
  · decide
  · intro p hp
    simp [chain, chain_from, state_gift_ahead] at hp
  · intro row col _ h
    simp only [state_gift_ahead, Grid.write, empty_map, Tile.default, Tile.of_type] at h
    split at h <;> simp at h
  · intro h
    exact absurd h (by decide)

/-- C2. A tick onto a `TILE_GIFT` cell, from a well-formed state and for any
random draws, completes; `num_bags` has grown by exactly one, the cell santa
stands on is `TILE_EMPTY`, the cell he left is `TILE_BAG` and is `first_bag`;
when there was no bag before, it is `last_bag` as well. -/
theorem gift_tile_grows_chain (rnd : Int → Int → Int) (hr : random_int_contract rnd)
    (s : GameState) (hw : well_formed s) (ht : target_type s = TILE_GIFT) :
    ∃ s', update_game_state rnd s = .ok s' ∧ s'.num_bags = s.num_bags + 1 ∧
      s'.santa = (move_santa s).santa ∧
      (s'.map s'.santa.row s'.santa.col).type = TILE_EMPTY ∧
      (s'.map s.santa.row s.santa.col).type = TILE_BAG ∧
      s'.first_bag = s.santa ∧
      (s.num_bags = 0 → s'.last_bag = s.santa) := by
  obtain ⟨s', h1, _, h2, h3, h4, h5, _, h7⟩ :=
    update_of_tile rnd hr s _ (tile_gift_ok s hw ht)
  have hne := move_santa_ne_v2 s
  have hts : (s.map (move_santa s).santa.row (move_santa s).santa.col).type = TILE_GIFT := ht
  refine ⟨s', h1, ?_, ?_, ?_, ?_, ?_, ?_⟩
  · rw [h3]; split <;> rfl
  · rw [h2]; split <;> rfl
  · rw [spawn_keeps_santa_cell _ s' h2 h7]
    split
    · simp [write_at, hne, Tile.of_type]
    · rename_i h0
      obtain ⟨_, ⟨_, hft⟩⟩ := chain_ends s hw.2.2 (by omega)
      have hf : (move_santa s).santa ≠ s.first_bag := by
        intro he
        rw [he, hft] at hts
        exact absurd hts (by decide)
      simp [write_at, hne, hf, Tile.of_type]
  · rw [spawn_keeps_non_empty _ s' _ _ _ h7]
    all_goals split <;> simp [write_at, Tile.of_type]
    all_goals split <;> simp
  · rw [h4]; split <;> rfl
  · intro h0
    rw [h5, if_pos (by omega)]

theorem gift_tile_grows_chain_witness :
    well_formed state_gift_ahead ∧ target_type state_gift_ahead = TILE_GIFT ∧
    ∃ s', update_game_state rnd_lo state_gift_ahead = .ok s' ∧ s'.num_bags = 0 + 1 ∧
      s'.santa = ⟨0, 1⟩ ∧
      (s'.map s'.santa.row s'.santa.col).type = TILE_EMPTY ∧
      (s'.map 0 0).type = TILE_BAG ∧
      s'.first_bag = ⟨0, 0⟩ ∧
      ((0 : Int) = 0 → s'.last_bag = ⟨0, 0⟩) :=
  ⟨state_gift_ahead_wf, by decide,
    gift_tile_grows_chain rnd_lo rnd_lo_contract state_gift_ahead state_gift_ahead_wf
      (by decide)⟩

/-! ## Stepping on a house with bags -/

theorem tile_house_one_ok (s : GameState) (hw : well_formed s) (hL : s.num_bags = 1)
    (ht : target_type s = TILE_HOUSE) :
    tile_phase s.santa (move_santa s) = .ok
      { move_santa s with
        map := (s.map.write (move_santa s).santa.row (move_santa s).santa.col
          (Tile.of_type TILE_EMPTY)).write s.last_bag.row s.last_bag.col
          (Tile.of_type TILE_EMPTY)
        num_bags := s.num_bags - 1 } := by
  obtain ⟨hsb, _, hc⟩ := hw
  obtain ⟨hnb, hfirst, hlast, _⟩ := move_santa_frame s
  obtain ⟨⟨hlb, _⟩, _⟩ := chain_ends s hc (by omega)
  have htb := move_santa_in_bounds s hsb
  unfold tile_phase
  rw [target_in_bounds s hsb]
  unfold target_type at ht
  have h0 : ¬s.num_bags ≤ 0 := by omega
  have h1 : ¬s.num_bags > 1 := by omega
  simp only [bind, Except.bind, ht, hnb, hlast, h0, h1, if_false, move_santa_map,
    map_set_ok _ _ _ _ htb, map_set_ok _ _ _ _ hlb, map_get_ok _ _ _ hlb, pure, Except.pure]

theorem tile_house_more_ok (s : GameState) (hw : well_formed s) (hL : 2 ≤ s.num_bags)
    (ht : target_type s = TILE_HOUSE) :
    tile_phase s.santa (move_santa s) = .ok
      { move_santa s with
        map := (((((s.map.write (move_santa s).santa.row (move_santa s).santa.col
          (Tile.of_type TILE_EMPTY)).write s.last_bag.row s.last_bag.col
          (Tile.of_type TILE_EMPTY)).write s.santa.row s.santa.col
          (Tile.of_type TILE_BAG)).write s.first_bag.row s.first_bag.col
          ⟨TILE_BAG, s.santa.row, s.santa.col⟩).write
          (prev_cell s.map s.last_bag).row (prev_cell s.map s.last_bag).col
          (Tile.of_type TILE_EMPTY))
        first_bag := s.santa
        last_bag := prev_cell ((((s.map.write (move_santa s).santa.row (move_santa s).santa.col
          (Tile.of_type TILE_EMPTY)).write s.last_bag.row s.last_bag.col
          (Tile.of_type TILE_EMPTY)).write s.santa.row s.santa.col
          (Tile.of_type TILE_BAG)).write s.first_bag.row s.first_bag.col
          ⟨TILE_BAG, s.santa.row, s.santa.col⟩) (prev_cell s.map s.last_bag)
        num_bags := s.num_bags - 1 } := by
  obtain ⟨hsb, _, hc⟩ := hw
  obtain ⟨hnb, hfirst, hlast, _⟩ := move_santa_frame s
  obtain ⟨⟨hlb, hlt⟩, ⟨hfb, _⟩⟩ := chain_ends s hc (by omega)
  obtain ⟨⟨hb2, _⟩, _⟩ := chain_two s hc hL
  have htb := move_santa_in_bounds s hsb
  unfold target_type at ht
  have hlt' : s.last_bag ≠ (move_santa s).santa := by
    intro he
    rw [← he, hlt] at ht
    exact absurd ht (by decide)
  have hm1 : (s.map.write (move_santa s).santa.row (move_santa s).santa.col
      (Tile.of_type TILE_EMPTY)) s.last_bag.row s.last_bag.col =
      s.map s.last_bag.row s.last_bag.col := by
    rw [write_at, if_neg hlt']
  unfold tile_phase
  rw [target_in_bounds s hsb]
  have h0 : ¬s.num_bags ≤ 0 := by omega
  have h1 : s.num_bags > 1 := by omega
  unfold prev_cell at hb2 ⊢
  simp only [bind, Except.bind, ht, hnb, hfirst, hlast, h0, h1, if_false, if_true, move_santa_map,
    map_set_ok _ _ _ _ htb, map_set_ok _ _ _ _ hlb, map_get_ok _ _ _ hlb, hm1,
    map_set_ok _ _ _ _ hsb, map_set_ok _ _ _ _ hfb, map_set_ok _ _ _ _ hb2,
    map_get_ok _ _ _ hb2, pure, Except.pure]

theorem bag_cells_house_one (s : GameState)
    (ht : target_type s = TILE_HOUSE) :
    bag_cells ((s.map.write (move_santa s).santa.row (move_santa s).santa.col
        (Tile.of_type TILE_EMPTY)).write s.last_bag.row s.last_bag.col
        (Tile.of_type TILE_EMPTY)) = (bag_cells s.map).erase s.last_bag := by
  unfold target_type at ht
  ext p
  simp only [mem_bag_cells, Finset.mem_erase, write_at, ne_eq]
  by_cases h1 : p = s.last_bag
  · subst h1
    simp [Tile.of_type]
  · by_cases h2 : p = (move_santa s).santa
    · subst h2
      simp [h1, ht, Tile.of_type]
    · simp [h1, h2]

theorem bag_cells_house_more (s : GameState) (hw : well_formed s) (hL : 2 ≤ s.num_bags)
    (ht : target_type s = TILE_HOUSE) :
    bag_cells (((((s.map.write (move_santa s).santa.row (move_santa s).santa.col
          (Tile.of_type TILE_EMPTY)).write s.last_bag.row s.last_bag.col
          (Tile.of_type TILE_EMPTY)).write s.santa.row s.santa.col
          (Tile.of_type TILE_BAG)).write s.first_bag.row s.first_bag.col
          ⟨TILE_BAG, s.santa.row, s.santa.col⟩).write
          (prev_cell s.map s.last_bag).row (prev_cell s.map s.last_bag).col
          (Tile.of_type TILE_EMPTY)) =
      insert s.santa (((bag_cells s.map).erase s.last_bag).erase (prev_cell s.map s.last_bag)) := by
  obtain ⟨hsb, hsn, hc⟩ := hw
  obtain ⟨⟨hlb, hlt⟩, ⟨hfb, hft⟩⟩ := chain_ends s hc (by omega)
  obtain ⟨⟨hb2, hb2t⟩, _, hfl, _⟩ := chain_two s hc hL
  unfold target_type at ht
  have hs2 := (ne_of_type_ne s.map _ _ hb2t hsn).symm
  have hsl := (ne_of_type_ne s.map _ _ hlt hsn).symm
  have hfs := ne_of_type_ne s.map _ _ hft hsn
  ext p
  simp only [mem_bag_cells, Finset.mem_insert, Finset.mem_erase, write_at, ne_eq]
  by_cases h1 : p = prev_cell s.map s.last_bag
  · subst h1
    simp [hs2.symm, Tile.of_type]
  · by_cases h2 : p = s.first_bag
    · subst h2
      simp [h1, hfs, hfl, hfb, hft]
    · by_cases h3 : p = s.santa
      · subst h3
        simp [h1, h2, hsb, Tile.of_type]
      · by_cases h4 : p = s.last_bag
        · subst h4
          simp [h1, h2, h3, Tile.of_type]
        · by_cases h5 : p = (move_santa s).santa
          · subst h5
            simp [h1, h2, h3, h4, ht, Tile.of_type]
          · simp [h1, h2, h3, h4, h5]

theorem house_new_last_bag (s : GameState) (hw : well_formed s) (hL : 2 ≤ s.num_bags)
    (ht : target_type s = TILE_HOUSE) :
    prev_cell ((((s.map.write (move_santa s).santa.row (move_santa s).santa.col
          (Tile.of_type TILE_EMPTY)).write s.last_bag.row s.last_bag.col
          (Tile.of_type TILE_EMPTY)).write s.santa.row s.santa.col
          (Tile.of_type TILE_BAG)).write s.first_bag.row s.first_bag.col
          ⟨TILE_BAG, s.santa.row, s.santa.col⟩) (prev_cell s.map s.last_bag) =
      if s.num_bags = 2 then s.santa else prev_cell s.map (prev_cell s.map s.last_bag) := by
  obtain ⟨hsb, hsn, hc⟩ := hw
  obtain ⟨⟨hb2, hb2t⟩, h2l, _, h2eq, h3⟩ := chain_two s hc hL
  unfold target_type at ht
  have hs2 := ne_of_type_ne s.map _ _ hb2t hsn
  have ht2 : prev_cell s.map s.last_bag ≠ (move_santa s).santa := by
    intro he
    rw [← he, hb2t] at ht
    exact absurd ht (by decide)
  by_cases h : s.num_bags = 2
  · rw [if_pos h]
    have hf := h2eq h
    rw [← hf]
    simp only [prev_cell, write_at, if_true]
  · rw [if_neg h]
    obtain ⟨hf, _⟩ := h3 (by omega)
    generalize prev_cell s.map s.last_bag = b2 at *
    simp only [prev_cell, write_at, if_neg (Ne.symm hf), if_neg hs2, if_neg h2l, if_neg ht2]

theorem well_formed_of_cells (s : GameState)
    (h1 : in_bounds s.santa.row s.santa.col)
    (h2 : (s.map s.santa.row s.santa.col).type ≠ TILE_BAG)
    (h3 : 0 ≤ s.num_bags)
    (h4 : (chain s).Nodup)
    (h5 : ∀ p ∈ chain s, in_bounds p.row p.col ∧ (s.map p.row p.col).type = TILE_BAG)
    (h6 : ∀ p ∈ all_cells, (s.map p.row p.col).type = TILE_BAG → p ∈ chain s)
    (h7 : 0 < s.num_bags → (chain s).getLast? = some s.first_bag) : well_formed s :=
  ⟨h1, h2, h3, h4, h5,
    fun row col hb ht => h6 ⟨row, col⟩ ((mem_all_cells ⟨row, col⟩).mpr hb) ht, h7⟩

theorem state_house_one_bag_wf : well_formed state_house_one_bag :=
  well_formed_of_cells _ (by decide) (by decide) (by decide) (by decide) (by decide)
    (by decide) (by decide)

theorem state_house_three_bags_wf : well_formed state_house_three_bags :=
  well_formed_of_cells _ (by decide) (by decide) (by decide) (by decide) (by decide)
    (by decide) (by decide)

/-- C3. A tick onto a `TILE_HOUSE` cell with `num_bags = L ≥ 1`, from a
well-formed state and for any random draws, completes; `num_bags` is `L - 1`,
the array holds exactly `L - 1` `TILE_BAG` cells, the cell santa stands on is
`TILE_EMPTY`, and `game_over` is what it was. -/
theorem house_tile_delivers_one (rnd : Int → Int → Int) (hr : random_int_contract rnd)
    (s : GameState) (hw : well_formed s) (hL : 1 ≤ s.num_bags)
    (ht : target_type s = TILE_HOUSE) :
    ∃ s', update_game_state rnd s = .ok s' ∧ s'.num_bags = s.num_bags - 1 ∧
      ((bag_cells s'.map).card : Int) = s.num_bags - 1 ∧
      s'.santa = (move_santa s).santa ∧
      (s'.map s'.santa.row s'.santa.col).type = TILE_EMPTY ∧
      s'.game_over = s.game_over := by
  have hgo := (move_santa_frame s).2.2.2.1
  have hcard := bag_cells_card s hw.2.2
  obtain ⟨⟨_, hlt⟩, ⟨_, hft⟩⟩ := chain_ends s hw.2.2 (by omega)
  have hlm : s.last_bag ∈ bag_cells s.map := by
    rw [bag_cells_eq_chain s hw.2.2, chain_unfold s (by omega)]
    simp
  have htt : (s.map (move_santa s).santa.row (move_santa s).santa.col).type = TILE_HOUSE := ht
  have hne := move_santa_ne_v2 s
  have htl : (move_santa s).santa ≠ s.last_bag := by
    intro he
    rw [he, hlt] at htt
    exact absurd htt (by decide)
  by_cases h1 : s.num_bags = 1
  · obtain ⟨s', h1', _, h2, h3, _, _, h6, h7⟩ :=
      update_of_tile rnd hr s _ (tile_house_one_ok s hw h1 ht)
    refine ⟨s', h1', h3, ?_, h2, ?_, h6.trans hgo⟩
    · have hb : bag_cells s'.map = (bag_cells s.map).erase s.last_bag := by
        rw [← bag_cells_house_one s ht]
        apply spawn_keeps_bags
        intro row col
        rcases h7 row col with h | ⟨h, _, h'⟩
        · exact Or.inl h
        · exact Or.inr ⟨h, h'⟩
      rw [hb, Finset.card_erase_of_mem hlm]
      have : 0 < (bag_cells s.map).card := Finset.card_pos.mpr ⟨_, hlm⟩
      omega
    · rw [spawn_keeps_santa_cell _ s' h2 h7]
      simp [write_at, htl, Tile.of_type]
  · obtain ⟨s', h1', _, h2, h3, _, _, h6, h7⟩ :=
      update_of_tile rnd hr s _ (tile_house_more_ok s hw (by omega) ht)
    obtain ⟨⟨_, hb2t⟩, h2l, _, _, _⟩ := chain_two s hw.2.2 (by omega)
    have hb2m : prev_cell s.map s.last_bag ∈ (bag_cells s.map).erase s.last_bag := by
      rw [Finset.mem_erase, mem_bag_cells]
      exact ⟨h2l, chain_two s hw.2.2 (by omega) |>.1⟩
    have hsm : s.santa ∉ ((bag_cells s.map).erase s.last_bag).erase
        (prev_cell s.map s.last_bag) := by
      intro hm
      have := (mem_bag_cells _ _).mp (Finset.mem_of_mem_erase (Finset.mem_of_mem_erase hm))
      exact hw.2.1 this.2
    refine ⟨s', h1', h3, ?_, h2, ?_, h6.trans hgo⟩
    · have hb : bag_cells s'.map = insert s.santa
          (((bag_cells s.map).erase s.last_bag).erase (prev_cell s.map s.last_bag)) := by
        rw [← bag_cells_house_more s hw (by omega) ht]
        apply spawn_keeps_bags
        intro row col
        rcases h7 row col with h | ⟨h, _, h'⟩
        · exact Or.inl h
        · exact Or.inr ⟨h, h'⟩
      rw [hb, Finset.card_insert_of_not_mem hsm, Finset.card_erase_of_mem hb2m,
        Finset.card_erase_of_mem hlm]
      have : 0 < ((bag_cells s.map).erase s.last_bag).card := Finset.card_pos.mpr ⟨_, hb2m⟩
      rw [Finset.card_erase_of_mem hlm] at this
      omega
    · rw [spawn_keeps_santa_cell _ s' h2 h7]
      have ht2 : (move_santa s).santa ≠ prev_cell s.map s.last_bag := by
        intro he
        rw [he, hb2t] at htt
        exact absurd htt (by decide)
      simp only [write_at, if_neg ht2]
      have htf : (move_santa s).santa ≠ s.first_bag := by
        intro he
        rw [he, hft] at htt
        exact absurd htt (by decide)
      simp [htf, hne, htl, Tile.of_type]

theorem house_tile_delivers_one_witness :
    well_formed state_house_one_bag ∧ (1 : Int) ≤ state_house_one_bag.num_bags ∧
    target_type state_house_one_bag = TILE_HOUSE ∧
    ∃ s', update_game_state rnd_lo state_house_one_bag = .ok s' ∧ s'.num_bags = 1 - 1 ∧
      ((bag_cells s'.map).card : Int) = 1 - 1 ∧
      s'.santa = ⟨0, 3⟩ ∧
      (s'.map s'.santa.row s'.santa.col).type = TILE_EMPTY ∧
      s'.game_over = false :=
  ⟨state_house_one_bag_wf, by decide, by decide,
    house_tile_delivers_one rnd_lo rnd_lo_contract state_house_one_bag state_house_one_bag_wf
      (by decide) (by decide)⟩

/-- C4. A tick onto a `TILE_HOUSE` cell with `num_bags = L ≥ 2`, from a
well-formed state and for any random draws, completes; the `TILE_BAG` cells are
the former ones without the old `last_bag` cell and without the cell its prev
pointer named, plus the cell santa left; `first_bag` is the cell santa left;
and `last_bag` is the third-oldest old link, or the cell santa left when
`L = 2`. -/
theorem house_tile_shifts_rest (rnd : Int → Int → Int) (hr : random_int_contract rnd)
    (s : GameState) (hw : well_formed s) (hL : 2 ≤ s.num_bags)
    (ht : target_type s = TILE_HOUSE) :
    ∃ s', update_game_state rnd s = .ok s' ∧
      bag_cells s'.map = insert s.santa
        (((bag_cells s.map).erase s.last_bag).erase (prev_cell s.map s.last_bag)) ∧
      s'.first_bag = s.santa ∧
      s'.last_bag =
        if s.num_bags = 2 then s.santa else prev_cell s.map (prev_cell s.map s.last_bag) := by
  obtain ⟨s', h1, _, _, _, h4, h5, _, h7⟩ :=
    update_of_tile rnd hr s _ (tile_house_more_ok s hw hL ht)
  refine ⟨s', h1, ?_, h4, ?_⟩
  · rw [← bag_cells_house_more s hw hL ht]
    apply spawn_keeps_bags
    intro row col
    rcases h7 row col with h | ⟨h, _, h'⟩
    · exact Or.inl h
    · exact Or.inr ⟨h, h'⟩
  · rw [h5]
    exact house_new_last_bag s hw hL ht

theorem house_tile_shifts_rest_witness :
    well_formed state_house_three_bags ∧ (2 : Int) ≤ state_house_three_bags.num_bags ∧
    target_type state_house_three_bags = TILE_HOUSE ∧
    ∃ s', update_game_state rnd_lo state_house_three_bags = .ok s' ∧
      bag_cells s'.map = insert ⟨0, 3⟩
        (((bag_cells state_house_three_bags.map).erase ⟨0, 0⟩).erase
          (prev_cell state_house_three_bags.map ⟨0, 0⟩)) ∧
      s'.first_bag = ⟨0, 3⟩ ∧
      s'.last_bag =
        if state_house_three_bags.num_bags = 2 then ⟨0, 3⟩
        else prev_cell state_house_three_bags.map
          (prev_cell state_house_three_bags.map ⟨0, 0⟩) :=
  ⟨state_house_three_bags_wf, by decide, by decide,
    house_tile_shifts_rest rnd_lo rnd_lo_contract state_house_three_bags
      state_house_three_bags_wf (by decide) (by decide)⟩

/-! ## Stepping on a bag, or on a house without a bag -/

theorem spawn_phase_cases (rnd : Int → Int → Int) (hr : random_int_contract rnd)
    (s : GameState) :
    (s.spawn_timer < s.spawn_time_sec ∧ spawn_phase rnd s = .ok s) ∨
    (s.spawn_timer ≥ s.spawn_time_sec ∧ empty_tiles s = [] ∧
      spawn_phase rnd s = .ok
        { s with
          spawn_time_sec := max (s.spawn_time_sec -
            SPAWN_TIME_DIFFICULTY_COEFFICIENT * s.spawn_time_sec) MIN_SPAWN_TIME_SEC
          spawn_timer := 0 }) ∨
    (s.spawn_timer ≥ s.spawn_time_sec ∧ ∃ p, p ∈ empty_tiles s ∧
      (empty_tiles s)[(rnd 0 ((empty_tiles s).length - 1)).toNat]? = some p ∧
      spawn_phase rnd s = .ok
        { s with
          map := s.map.write p.row p.col
            (Tile.of_type (if rnd 1 100 ≤ 50 then TILE_GIFT else TILE_HOUSE))
          spawn_time_sec := max (s.spawn_time_sec -
            SPAWN_TIME_DIFFICULTY_COEFFICIENT * s.spawn_time_sec) MIN_SPAWN_TIME_SEC
          spawn_timer := 0 }) := by
  unfold spawn_phase
  by_cases ht : s.spawn_timer ≥ s.spawn_time_sec
  · right
    rcases spawn_tile_spec rnd hr s with ⟨he, h⟩ | ⟨p, hp, hi, h⟩
    · left
      refine ⟨ht, he, ?_⟩
      simp only [ht, h, bind, Except.bind, pure, Except.pure, if_true]
    · right
      refine ⟨ht, p, hp, hi, ?_⟩
      simp only [ht, h, bind, Except.bind, pure, Except.pure, if_true]
  · left
    exact ⟨lt_of_not_ge ht, by simp only [ht, if_false, pure, Except.pure]⟩

theorem target_get (s : GameState)
    (hb : in_bounds (move_santa s).santa.row (move_santa s).santa.col) :
    map_get (move_santa s).map (move_santa s).santa.row (move_santa s).santa.col =
      .ok (s.map (move_santa s).santa.row (move_santa s).santa.col) := by
  rw [map_get_ok _ _ _ hb, move_santa_map]

theorem tile_bag_ok (s : GameState)
    (hb : in_bounds (move_santa s).santa.row (move_santa s).santa.col)
    (ht : target_type s = TILE_BAG) :
    tile_phase s.santa (move_santa s) = .ok { move_santa s with game_over := true } := by
  unfold tile_phase
  unfold target_type at ht
  rw [target_get s hb]
  simp only [bind, Except.bind, ht, pure, Except.pure]

theorem tile_house_none_ok (s : GameState)
    (hb : in_bounds (move_santa s).santa.row (move_santa s).santa.col)
    (hn : s.num_bags ≤ 0) (ht : target_type s = TILE_HOUSE) :
    tile_phase s.santa (move_santa s) = .ok { move_santa s with game_over := true } := by
  unfold tile_phase
  unfold target_type at ht
  rw [target_get s hb]
  simp only [bind, Except.bind, ht, (move_santa_frame s).1, hn, if_true, pure, Except.pure]

theorem update_eq_of_tile (rnd : Int → Int → Int) (s s2 : GameState)
    (h : tile_phase s.santa (move_santa s) = .ok s2) :
    update_game_state rnd s = spawn_phase rnd s2 := by
  unfold update_game_state
  simp only [h, bind, Except.bind]

/-- C5, as the code has it.  A tick onto a `TILE_BAG` cell, from any state and
for any random draws, completes with `game_over` true and `num_bags`,
`first_bag`, `last_bag` as before.  The array is as before when the spawn timer
has not set off; when it has, at most one cell differs, and a cell that differs
was `TILE_EMPTY`, is not the cell santa stands on, and now holds a fresh
`TILE_GIFT` or `TILE_HOUSE`. -/
theorem bag_tile_ends_game (rnd : Int → Int → Int) (hr : random_int_contract rnd)
    (s : GameState)
    (hb : in_bounds (move_santa s).santa.row (move_santa s).santa.col)
    (ht : target_type s = TILE_BAG) :
    ∃ s', update_game_state rnd s = .ok s' ∧ s'.game_over = true ∧
      s'.num_bags = s.num_bags ∧ s'.first_bag = s.first_bag ∧ s'.last_bag = s.last_bag ∧
      (s.spawn_timer < s.spawn_time_sec → s'.map = s.map) ∧
      (∃ p : v2, ∀ row col, ¬(row = p.row ∧ col = p.col) → s'.map row col = s.map row col) ∧
      (∀ row col, s'.map row col ≠ s.map row col →
        (s.map row col).type = TILE_EMPTY ∧ ¬(s'.santa.row = row ∧ s'.santa.col = col) ∧
        (s'.map row col = Tile.of_type TILE_GIFT ∨
          s'.map row col = Tile.of_type TILE_HOUSE)) := by
  rw [update_eq_of_tile rnd s _ (tile_bag_ok s hb ht)]
  obtain ⟨hnb, hfirst, hlast, _, htimer, htime, _⟩ := move_santa_frame s
  have hmap := move_santa_map s
  rcases spawn_phase_cases rnd hr { move_santa s with game_over := true } with
    ⟨_, h⟩ | ⟨_, _, h⟩ | ⟨hge, p, hp, _, h⟩
  · refine ⟨_, h, rfl, hnb, hfirst, hlast, fun _ => hmap, ⟨⟨0, 0⟩, fun _ _ _ => ?_⟩, ?_⟩
    · simp only [hmap]
    · intro row col hne
      exact absurd (by simp only [hmap]) hne
  · refine ⟨_, h, rfl, hnb, hfirst, hlast, fun _ => hmap, ⟨⟨0, 0⟩, fun _ _ _ => ?_⟩, ?_⟩
    · simp only [hmap]
    · intro row col hne
      exact absurd (by simp only [hmap]) hne
  · obtain ⟨_, he, hs⟩ := (mem_empty_tiles _ p).mp hp
    simp only [hmap] at he
    refine ⟨_, h, rfl, hnb, hfirst, hlast, ?_, ⟨p, fun row col hne => ?_⟩, ?_⟩
    · intro hlt
      simp only [htimer, htime] at hge
      exact absurd hge (not_le.mpr hlt)
    · simp only [hmap, Grid.write, if_neg hne]
    · intro row col hne
      by_cases hc : row = p.row ∧ col = p.col
      · obtain ⟨rfl, rfl⟩ := hc
        refine ⟨he, hs, ?_⟩
        simp only [Grid.write, and_self, if_true]
        split
        · exact Or.inl rfl
        · exact Or.inr rfl
      · exact absurd (by simp only [hmap, Grid.write, if_neg hc]) hne

theorem bag_tile_ends_game_witness :
    in_bounds (move_santa state_bag_ahead).santa.row (move_santa state_bag_ahead).santa.col ∧
    target_type state_bag_ahead = TILE_BAG ∧
    ∃ s', update_game_state rnd_lo state_bag_ahead = .ok s' ∧ s'.game_over = true ∧
      s'.num_bags = 3 ∧ s'.first_bag = ⟨1, 2⟩ ∧ s'.last_bag = ⟨0, 1⟩ ∧
      (state_bag_ahead.spawn_timer < state_bag_ahead.spawn_time_sec →
        s'.map = state_bag_ahead.map) ∧
      (∃ p : v2, ∀ row col, ¬(row = p.row ∧ col = p.col) →
        s'.map row col = state_bag_ahead.map row col) ∧
      (∀ row col, s'.map row col ≠ state_bag_ahead.map row col →
        (state_bag_ahead.map row col).type = TILE_EMPTY ∧
        ¬(s'.santa.row = row ∧ s'.santa.col = col) ∧
        (s'.map row col = Tile.of_type TILE_GIFT ∨
          s'.map row col = Tile.of_type TILE_HOUSE)) :=
  ⟨by decide, by decide,
    bag_tile_ends_game rnd_lo rnd_lo_contract state_bag_ahead (by decide) (by decide)⟩

/-- C5, against the claim as stated.  In `state_bag_ahead` santa steps onto a
`TILE_BAG` cell while the spawn timer has set off: the tick ends the game and
also turns the empty cell (0,0) into a gift, so the array is not what it was. -/
theorem bag_tile_spawn_changes_map :
    target_type state_bag_ahead = TILE_BAG ∧ random_int_contract rnd_lo ∧
    ∃ s', update_game_state rnd_lo state_bag_ahead = .ok s' ∧ s'.game_over = true ∧
      state_bag_ahead.map 0 0 = Tile.default ∧ s'.map 0 0 = Tile.of_type TILE_GIFT ∧
      s'.map 0 0 ≠ state_bag_ahead.map 0 0 := by
  refine ⟨by decide, rnd_lo_contract, ?_⟩
  rw [update_eq_of_tile rnd_lo state_bag_ahead _
    (tile_bag_ok state_bag_ahead (by decide) (by decide))]
  rcases spawn_phase_cases rnd_lo rnd_lo_contract
    { move_santa state_bag_ahead with game_over := true } with
    ⟨hlt, _⟩ | ⟨_, he, _⟩ | ⟨_, p, _, hi, h⟩
  · exact absurd hlt (by simp [move_santa, state_bag_ahead, SPAWN_TIME_SEC_START])
  · exact absurd he (by decide)
  · have hp : p = ⟨0, 0⟩ := by
      have h0 : (empty_tiles { move_santa state_bag_ahead with game_over := true })[0]? =
          some ⟨0, 0⟩ := by decide
      have hz : (rnd_lo 0 (((empty_tiles
          { move_santa state_bag_ahead with game_over := true }).length : Int) - 1)).toNat =
          0 := rfl
      rw [hz, h0] at hi
      exact (Option.some.inj hi).symm
    subst hp
    refine ⟨_, h, rfl, by decide, ?_, ?_⟩
    · simp [Grid.write, rnd_lo]
    · simp [Grid.write, rnd_lo, Tile.of_type, state_bag_ahead, move_santa, empty_map,
        Tile.default]

/-- C6. A tick onto a `TILE_HOUSE` cell with no bag (`num_bags ≤ 0`), from any
state and for any random draws, completes with `game_over` true; `num_bags` is
unchanged and the cell santa stands on is still `TILE_HOUSE`. -/
theorem house_tile_empty_handed (rnd : Int → Int → Int) (hr : random_int_contract rnd)
    (s : GameState)
    (hb : in_bounds (move_santa s).santa.row (move_santa s).santa.col)
    (hn : s.num_bags ≤ 0) (ht : target_type s = TILE_HOUSE) :
    ∃ s', update_game_state rnd s = .ok s' ∧ s'.game_over = true ∧
      s'.num_bags = s.num_bags ∧ s'.santa = (move_santa s).santa ∧
      (s'.map (move_santa s).santa.row (move_santa s).santa.col).type = TILE_HOUSE := by
  rw [update_eq_of_tile rnd s _ (tile_house_none_ok s hb hn ht)]
  obtain ⟨s', h1, h2, h3, _, _, h6, h7⟩ :=
    spawn_phase_spec rnd hr { move_santa s with game_over := true }
  refine ⟨s', h1, h6, h3.trans (move_santa_frame s).1, h2, ?_⟩
  have := spawn_keeps_santa_cell _ s' h2 h7
  rw [h2] at this
  rw [this]
  simp only [move_santa_map]
  exact ht

theorem house_tile_empty_handed_witness :
    in_bounds (move_santa state_house_no_bag).santa.row
      (move_santa state_house_no_bag).santa.col ∧
    state_house_no_bag.num_bags ≤ 0 ∧ target_type state_house_no_bag = TILE_HOUSE ∧
    ∃ s', update_game_state rnd_lo state_house_no_bag = .ok s' ∧ s'.game_over = true ∧
      s'.num_bags = 0 ∧ s'.santa = ⟨0, 3⟩ ∧ (s'.map 0 3).type = TILE_HOUSE :=
  ⟨by decide, by decide, by decide,
    house_tile_empty_handed rnd_lo rnd_lo_contract state_house_no_bag (by decide) (by decide)
      (by decide)⟩

/-! ## The direction input -/

/-- C7. With exactly one direction requested in the input pass of
`GameScene::update`, `santa_direction` stays what it was when `num_bags > 0`
and the request is its exact opposite, and becomes the request in every other
case, in particular for every request when `num_bags = 0`. -/
theorem anti_reversal_single_request (keyboard : Keyboard) (s : GameState) (r : Direction)
    (h : single_request keyboard r) :
    (input_pass keyboard s).santa_direction =
      if s.num_bags > 0 ∧ r = opposite s.santa_direction then s.santa_direction else r := by
  have hN := h DIRECTION_NORTH
  have hS := h DIRECTION_SOUTH
  have hW := h DIRECTION_WEST
  have hE := h DIRECTION_EAST
  simp only [requests] at hN hS hW hE
  unfold input_pass
  by_cases hb : s.num_bags > 0 <;> cases r <;> cases hd : s.santa_direction <;>
    simp_all [opposite] <;> rw [if_neg (not_lt.mpr hb)]

theorem anti_reversal_single_request_witness :
    single_request { no_keys with SDL_SCANCODE_S := true } DIRECTION_SOUTH ∧
    (input_pass { no_keys with SDL_SCANCODE_S := true }
        { default_state with num_bags := 1 }).santa_direction = DIRECTION_NORTH ∧
    (input_pass { no_keys with SDL_SCANCODE_S := true }
        { default_state with num_bags := 0 }).santa_direction = DIRECTION_SOUTH :=
  have hk : single_request { no_keys with SDL_SCANCODE_S := true } DIRECTION_SOUTH := by
    intro d
    cases d <;> decide
  ⟨hk,
    anti_reversal_single_request _ { default_state with num_bags := 1 } DIRECTION_SOUTH hk,
    anti_reversal_single_request _ { default_state with num_bags := 0 } DIRECTION_SOUTH hk⟩

/-! ## What no branch of the tick touches -/

theorem tile_phase_frame (o : v2) (s s' : GameState) (h : tile_phase o s = .ok s') :
    s'.santa = s.santa ∧ s'.spawn_timer = s.spawn_timer ∧
    s'.spawn_time_sec = s.spawn_time_sec ∧ s'.santa_direction = s.santa_direction ∧
    (s.game_over = true → s'.game_over = true) := by
  unfold tile_phase map_get map_set at h
  simp only [bind, Except.bind, pure, Except.pure] at h
  repeat' split at h
  all_goals first
    | contradiction
    | (cases h; simp)

theorem spawn_phase_frame (rnd : Int → Int → Int) (s s' : GameState)
    (h : spawn_phase rnd s = .ok s') :
    s'.santa = s.santa ∧ s'.game_over = s.game_over ∧
    s'.santa_direction = s.santa_direction ∧
    s'.spawn_time_sec =
      if s.spawn_timer ≥ s.spawn_time_sec then
        max (s.spawn_time_sec - SPAWN_TIME_DIFFICULTY_COEFFICIENT * s.spawn_time_sec)
          MIN_SPAWN_TIME_SEC
      else s.spawn_time_sec := by
  unfold spawn_phase at h
  by_cases ht : s.spawn_timer ≥ s.spawn_time_sec
  · simp only [ht, if_true] at h ⊢
    cases hs : spawn_tile rnd s with
    | error e => simp [hs, bind, Except.bind] at h
    | ok m =>
      simp only [hs, bind, Except.bind, pure, Except.pure] at h
      cases h
      exact ⟨rfl, rfl, rfl, rfl⟩
  · simp only [ht, if_false, pure, Except.pure] at h ⊢
    cases h
    exact ⟨rfl, rfl, rfl, rfl⟩

theorem update_frame (rnd : Int → Int → Int) (s s' : GameState)
    (h : update_game_state rnd s = .ok s') :
    s'.santa = (move_santa s).santa ∧
    (s.game_over = true → s'.game_over = true) ∧
    s'.spawn_time_sec =
      if s.spawn_timer ≥ s.spawn_time_sec then
        max (s.spawn_time_sec - SPAWN_TIME_DIFFICULTY_COEFFICIENT * s.spawn_time_sec)
          MIN_SPAWN_TIME_SEC
      else s.spawn_time_sec := by
  unfold update_game_state at h
  cases ht : tile_phase s.santa (move_santa s) with
  | error e => simp [ht, bind, Except.bind] at h
  | ok s2 =>
    simp only [ht, bind, Except.bind] at h
    obtain ⟨a1, a2, a3, _, a5⟩ := tile_phase_frame _ _ _ ht
    obtain ⟨b1, b2, _, b4⟩ := spawn_phase_frame _ _ _ h
    obtain ⟨_, _, _, c4, c5, c6, _⟩ := move_santa_frame s
    refine ⟨b1.trans a1, ?_, ?_⟩
    · intro hg
      rw [b2]
      exact a5 (c4.trans hg)
    · rw [b4, a2, a3, c5, c6]

/-! ## The move -/

/-- C8. From a cell of the array, `move_santa` puts santa on the wrap-around
neighbour in `santa_direction`: the row or column stepped along changes by one
modulo 8 and the other one stays, so the far edge follows each edge and the new
cell is in the array again; and it is where santa is when `update_game_state`
returns. -/
theorem santa_moves_to_wrapped_neighbour (s : GameState)
    (h : in_bounds s.santa.row s.santa.col) :
    (move_santa s).santa =
      (match s.santa_direction with
      | DIRECTION_NORTH => ⟨(s.santa.row - 1) % 8, s.santa.col⟩
      | DIRECTION_SOUTH => ⟨(s.santa.row + 1) % 8, s.santa.col⟩
      | DIRECTION_WEST => ⟨s.santa.row, (s.santa.col - 1) % 8⟩
      | DIRECTION_EAST => ⟨s.santa.row, (s.santa.col + 1) % 8⟩) ∧
    (s.santa_direction = DIRECTION_WEST → s.santa.col = 0 → (move_santa s).santa.col = 7) ∧
    (s.santa_direction = DIRECTION_EAST → s.santa.col = 7 → (move_santa s).santa.col = 0) ∧
    (s.santa_direction = DIRECTION_NORTH → s.santa.row = 0 → (move_santa s).santa.row = 7) ∧
    (s.santa_direction = DIRECTION_SOUTH → s.santa.row = 7 → (move_santa s).santa.row = 0) ∧
    in_bounds (move_santa s).santa.row (move_santa s).santa.col ∧
    ∀ rnd s', update_game_state rnd s = .ok s' → s'.santa = (move_santa s).santa := by
  refine ⟨?_, ?_, ?_, ?_, ?_, move_santa_in_bounds s h,
    fun rnd s' hu => (update_frame rnd s s' hu).1⟩
  · unfold move_santa
    cases s.santa_direction <;> simp only [mod_eq_emod]
  all_goals
    intro hd hz
    unfold move_santa
    simp only [hd, hz, mod_eq_emod]
    decide

theorem santa_moves_to_wrapped_neighbour_witness :
    in_bounds default_state.santa.row default_state.santa.col ∧
    (move_santa { default_state with santa_direction := DIRECTION_WEST }).santa = ⟨0, 7⟩ ∧
    in_bounds (move_santa { default_state with santa_direction := DIRECTION_WEST }).santa.row
      (move_santa { default_state with santa_direction := DIRECTION_WEST }).santa.col :=
  ⟨by decide,
    (santa_moves_to_wrapped_neighbour
      { default_state with santa_direction := DIRECTION_WEST } (by decide)).1,
    (santa_moves_to_wrapped_neighbour
      { default_state with santa_direction := DIRECTION_WEST } (by decide)).2.2.2.2.2.1⟩

/-! ## The spawn interval -/

theorem input_pass_spawn_time (keyboard : Keyboard) (s : GameState) :
    (input_pass keyboard s).spawn_time_sec = s.spawn_time_sec := by
  unfold input_pass
  lift_lets
  intro s1 s2 s3
  have h1 : s1.spawn_time_sec = s.spawn_time_sec := by
    simp only [s1]
    split <;> [split <;> rfl; rfl]
  have h2 : s2.spawn_time_sec = s1.spawn_time_sec := by
    simp only [s2]
    split <;> [split <;> rfl; rfl]
  have h3 : s3.spawn_time_sec = s2.spawn_time_sec := by
    simp only [s3]
    split <;> [split <;> rfl; rfl]
  rw [← h1, ← h2, ← h3]
  split <;> [split <;> rfl; rfl]

theorem decay_bounds (x : ℚ) (h : MIN_SPAWN_TIME_SEC ≤ x) :
    MIN_SPAWN_TIME_SEC ≤ max (x - SPAWN_TIME_DIFFICULTY_COEFFICIENT * x) MIN_SPAWN_TIME_SEC ∧
    max (x - SPAWN_TIME_DIFFICULTY_COEFFICIENT * x) MIN_SPAWN_TIME_SEC ≤ x ∧
    max (x - SPAWN_TIME_DIFFICULTY_COEFFICIENT * x) MIN_SPAWN_TIME_SEC =
      max (99 / 100 * x) (1 / 2) := by
  unfold MIN_SPAWN_TIME_SEC SPAWN_TIME_DIFFICULTY_COEFFICIENT at *
  refine ⟨le_max_right _ _, max_le (by linarith) h, ?_⟩
  congr 1
  ring

theorem update_spawn_time (rnd : Int → Int → Int) (s s' : GameState)
    (h : update_game_state rnd s = .ok s') (hmin : MIN_SPAWN_TIME_SEC ≤ s.spawn_time_sec) :
    MIN_SPAWN_TIME_SEC ≤ s'.spawn_time_sec ∧ s'.spawn_time_sec ≤ s.spawn_time_sec := by
  obtain ⟨_, _, h3⟩ := update_frame rnd s s' h
  obtain ⟨d1, d2, _⟩ := decay_bounds s.spawn_time_sec hmin
  rw [h3]
  split
  · exact ⟨d1, d2⟩
  · exact ⟨hmin, le_refl _⟩

theorem scene_update_spawn_time (f : Frame) (scene scene' : GameScene)
    (h : GameScene.update f.rnd f.keyboard f.dt_sec scene = .ok scene')
    (hmin : MIN_SPAWN_TIME_SEC ≤ scene.m_game_state.spawn_time_sec) :
    MIN_SPAWN_TIME_SEC ≤ scene'.m_game_state.spawn_time_sec ∧
    scene'.m_game_state.spawn_time_sec ≤ scene.m_game_state.spawn_time_sec := by
  unfold GameScene.update at h
  by_cases ht : scene.m_tick_timer ≥ SEC_PER_TICK
  · simp only [ht, if_true] at h
    cases hu : update_game_state f.rnd (input_pass f.keyboard scene.m_game_state) with
    | error e => simp [hu, bind, Except.bind] at h
    | ok after =>
      simp only [hu, bind, Except.bind, pure, Except.pure] at h
      cases h
      have := update_spawn_time _ _ _ hu (by rw [input_pass_spawn_time]; exact hmin)
      rw [input_pass_spawn_time] at this
      exact this
  · simp only [ht, if_false, bind, Except.bind, pure, Except.pure] at h
    cases h
    simp only [input_pass_spawn_time]
    exact ⟨hmin, le_refl _⟩

theorem run_frames_spawn_time (frames : List Frame) (scene scene' : GameScene)
    (h : run_frames frames scene = .ok scene')
    (hmin : MIN_SPAWN_TIME_SEC ≤ scene.m_game_state.spawn_time_sec) :
    MIN_SPAWN_TIME_SEC ≤ scene'.m_game_state.spawn_time_sec ∧
    scene'.m_game_state.spawn_time_sec ≤ scene.m_game_state.spawn_time_sec := by
  induction frames generalizing scene with
  | nil =>
    simp only [run_frames, pure, Except.pure] at h
    cases h
    exact ⟨hmin, le_refl _⟩
  | cons f rest ih =>
    unfold run_frames at h
    cases hu : GameScene.update f.rnd f.keyboard f.dt_sec scene with
    | error e => simp [hu, bind, Except.bind] at h
    | ok next =>
      simp only [hu, bind, Except.bind] at h
      obtain ⟨a1, a2⟩ := scene_update_spawn_time f scene next hu hmin
      obtain ⟨b1, b2⟩ := ih next h a1
      exact ⟨b1, le_trans b2 a2⟩

/-- C9. With the spawn time an exact rational: a call of `update_game_state`
that starts with `spawn_time_sec` at or above `MIN_SPAWN_TIME_SEC` leaves it
between `MIN_SPAWN_TIME_SEC` and its old value, equal to
`max (0.99 * spawn_time_sec) 0.5` when the spawn timer had set off and unchanged
otherwise; and along any run of frames that starts at `SPAWN_TIME_SEC_START` it
never grows and never falls below `MIN_SPAWN_TIME_SEC`. -/
theorem spawn_interval_bounded :
    (∀ (rnd : Int → Int → Int) (s s' : GameState),
      update_game_state rnd s = .ok s' → MIN_SPAWN_TIME_SEC ≤ s.spawn_time_sec →
        1 / 2 ≤ s'.spawn_time_sec ∧ s'.spawn_time_sec ≤ s.spawn_time_sec ∧
        (s.spawn_timer ≥ s.spawn_time_sec →
          s'.spawn_time_sec = max (99 / 100 * s.spawn_time_sec) (1 / 2)) ∧
        (s.spawn_timer < s.spawn_time_sec → s'.spawn_time_sec = s.spawn_time_sec)) ∧
    (∀ (frames1 frames2 : List Frame) (scene scene1 scene2 : GameScene),
      scene.m_game_state.spawn_time_sec = SPAWN_TIME_SEC_START →
      run_frames frames1 scene = .ok scene1 → run_frames frames2 scene1 = .ok scene2 →
        1 / 2 ≤ scene2.m_game_state.spawn_time_sec ∧
        scene2.m_game_state.spawn_time_sec ≤ scene1.m_game_state.spawn_time_sec ∧
        scene1.m_game_state.spawn_time_sec ≤ 2) := by
  constructor
  · intro rnd s s' h hmin
    obtain ⟨a1, a2⟩ := update_spawn_time rnd s s' h hmin
    obtain ⟨_, _, h3⟩ := update_frame rnd s s' h
    refine ⟨a1, a2, ?_, ?_⟩
    · intro hge
      rw [h3, if_pos hge]
      exact (decay_bounds _ hmin).2.2
    · intro hlt
      rw [h3, if_neg (not_le.mpr hlt)]
  · intro frames1 frames2 scene scene1 scene2 h0 h1 h2
    have hmin : MIN_SPAWN_TIME_SEC ≤ scene.m_game_state.spawn_time_sec := by
      rw [h0]
      norm_num [MIN_SPAWN_TIME_SEC, SPAWN_TIME_SEC_START]
    obtain ⟨a1, a2⟩ := run_frames_spawn_time frames1 scene scene1 h1 hmin
    obtain ⟨b1, b2⟩ := run_frames_spawn_time frames2 scene1 scene2 h2 a1
    rw [h0] at a2
    exact ⟨b1, b2, a2⟩

theorem update_bag_ahead_ok : ∃ s', update_game_state rnd_lo state_bag_ahead = .ok s' := by
  rw [update_eq_of_tile rnd_lo state_bag_ahead _
    (tile_bag_ok state_bag_ahead (by decide) (by decide))]
  obtain ⟨s', h, _⟩ := spawn_phase_spec rnd_lo rnd_lo_contract
    { move_santa state_bag_ahead with game_over := true }
  exact ⟨s', h⟩

theorem run_bag_ahead_ok :
    ∃ scene1, run_frames [⟨rnd_lo, no_keys, 1 / 60⟩] ⟨state_bag_ahead, 1 / 2⟩ = .ok scene1 := by
  obtain ⟨s', h⟩ := update_bag_ahead_ok
  have hi : input_pass no_keys state_bag_ahead = state_bag_ahead := rfl
  have ht : (1 / 2 : ℚ) ≥ SEC_PER_TICK := le_refl _
  simp only [run_frames, GameScene.update, hi, h, ht, if_true, bind, Except.bind, pure,
    Except.pure]
  exact ⟨_, rfl⟩

theorem spawn_interval_bounded_witness :
    MIN_SPAWN_TIME_SEC ≤ state_bag_ahead.spawn_time_sec ∧
    (∃ s', update_game_state rnd_lo state_bag_ahead = .ok s' ∧
      1 / 2 ≤ s'.spawn_time_sec ∧ s'.spawn_time_sec ≤ 2 ∧ s'.spawn_time_sec = 99 / 50) ∧
    ∃ scene1, run_frames [⟨rnd_lo, no_keys, 1 / 60⟩] ⟨state_bag_ahead, 1 / 2⟩ = .ok scene1 ∧
      1 / 2 ≤ scene1.m_game_state.spawn_time_sec ∧
      scene1.m_game_state.spawn_time_sec ≤ 2 := by
  have hmin : MIN_SPAWN_TIME_SEC ≤ state_bag_ahead.spawn_time_sec := by
    norm_num [MIN_SPAWN_TIME_SEC, state_bag_ahead, SPAWN_TIME_SEC_START]
  obtain ⟨s', h⟩ := update_bag_ahead_ok
  obtain ⟨scene1, hrun⟩ := run_bag_ahead_ok
  obtain ⟨a1, a2, a3, _⟩ := spawn_interval_bounded.1 rnd_lo state_bag_ahead s' h hmin
  obtain ⟨b1, _, b3⟩ := spawn_interval_bounded.2 [⟨rnd_lo, no_keys, 1 / 60⟩] []
    ⟨state_bag_ahead, 1 / 2⟩ scene1 scene1 rfl hrun rfl
  refine ⟨hmin, ⟨s', h, a1, a2, ?_⟩, scene1, hrun, b1, b3⟩
  rw [a3 (by norm_num [state_bag_ahead, SPAWN_TIME_SEC_START])]
  norm_num [state_bag_ahead, SPAWN_TIME_SEC_START]

/-! ## Spawn placement -/

theorem rnd_pick_contract (i : Int) : random_int_contract (rnd_pick i) := by
  intro lo hi h
  unfold rnd_pick
  split
  · assumption
  · exact ⟨le_refl _, h⟩

theorem tile_of_type_ne (t : Tile) (k : TileType) (ht : t.type = TILE_EMPTY)
    (hk : k ≠ TILE_EMPTY) : Tile.of_type k ≠ t := by
  intro he
  rw [← he] at ht
  exact hk ht

/-- C10. When the spawn timer has set off and some cell is `TILE_EMPTY` and not
the one santa stands on, the spawn phase completes for every outcome of the two
draws and changes exactly one cell of the array: a cell that was `TILE_EMPTY`
and is not santa's, which becomes a fresh `TILE_GIFT` when the second draw is at
most 50 and a fresh `TILE_HOUSE` otherwise; every other cell keeps its tile,
prev pointers included; and every such cell is the one chosen for some
outcome of the index draw. -/
theorem spawn_places_one_tile (rnd : Int → Int → Int) (hr : random_int_contract rnd)
    (s : GameState) (hfire : s.spawn_timer ≥ s.spawn_time_sec)
    (hex : ∃ row col, in_bounds row col ∧ (s.map row col).type = TILE_EMPTY ∧
      ¬(s.santa.row = row ∧ s.santa.col = col)) :
    (∃ (s' : GameState) (p : v2), spawn_phase rnd s = .ok s' ∧
      in_bounds p.row p.col ∧ (s.map p.row p.col).type = TILE_EMPTY ∧
      ¬(s.santa.row = p.row ∧ s.santa.col = p.col) ∧
      s'.map p.row p.col =
        Tile.of_type (if rnd 1 100 ≤ 50 then TILE_GIFT else TILE_HOUSE) ∧
      s'.map p.row p.col ≠ s.map p.row p.col ∧
      ∀ row col, ¬(row = p.row ∧ col = p.col) → s'.map row col = s.map row col) ∧
    (∀ q : v2, in_bounds q.row q.col → (s.map q.row q.col).type = TILE_EMPTY →
      ¬(s.santa.row = q.row ∧ s.santa.col = q.col) →
      ∃ rnd', random_int_contract rnd' ∧ ∃ s'', spawn_phase rnd' s = .ok s'' ∧
        s''.map q.row q.col ≠ s.map q.row q.col ∧
        ∀ row col, ¬(row = q.row ∧ col = q.col) → s''.map row col = s.map row col) := by
  have key : ∀ rnd0, random_int_contract rnd0 → ∃ p, p ∈ empty_tiles s ∧
      (empty_tiles s)[(rnd0 0 ((empty_tiles s).length - 1)).toNat]? = some p ∧
      spawn_phase rnd0 s = .ok
        { s with
          map := s.map.write p.row p.col
            (Tile.of_type (if rnd0 1 100 ≤ 50 then TILE_GIFT else TILE_HOUSE))
          spawn_time_sec := max (s.spawn_time_sec -
            SPAWN_TIME_DIFFICULTY_COEFFICIENT * s.spawn_time_sec) MIN_SPAWN_TIME_SEC
          spawn_timer := 0 } := by
    intro rnd0 hr0
    obtain ⟨row, col, hb, he, hs⟩ := hex
    have hmem : (⟨row, col⟩ : v2) ∈ empty_tiles s := (mem_empty_tiles s _).mpr ⟨hb, he, hs⟩
    rcases spawn_phase_cases rnd0 hr0 s with ⟨hlt, _⟩ | ⟨_, hnil, _⟩ | ⟨_, h⟩
    · exact absurd hfire (not_le.mpr hlt)
    · rw [hnil] at hmem
      exact absurd hmem (List.not_mem_nil _)
    · exact h
  have changed : ∀ (p : v2) (k : TileType), (s.map p.row p.col).type = TILE_EMPTY →
      k ≠ TILE_EMPTY →
      (s.map.write p.row p.col (Tile.of_type k)) p.row p.col ≠ s.map p.row p.col := by
    intro p k he hk
    simp only [Grid.write, and_self, if_true]
    exact tile_of_type_ne _ _ he hk
  have kind_ne : ∀ rnd0 : Int → Int → Int,
      (if rnd0 1 100 ≤ 50 then TILE_GIFT else TILE_HOUSE) ≠ TILE_EMPTY := by
    intro rnd0
    split <;> decide
  constructor
  · obtain ⟨p, hp, _, h⟩ := key rnd hr
    obtain ⟨hb, he, hs⟩ := (mem_empty_tiles s p).mp hp
    refine ⟨_, p, h, hb, he, hs, ?_, changed p _ he (kind_ne rnd), ?_⟩
    · simp only [Grid.write, and_self, if_true]
    · intro row col hne
      simp only [Grid.write, if_neg hne]
  · intro q hb he hs
    have hq : q ∈ empty_tiles s := (mem_empty_tiles s q).mpr ⟨hb, he, hs⟩
    obtain ⟨i, hi, hget⟩ := List.getElem_of_mem hq
    obtain ⟨p, _, hidx, h⟩ := key (rnd_pick i) (rnd_pick_contract i)
    have hpick : rnd_pick (i : Int) 0 (((empty_tiles s).length : Int) - 1) = (i : Int) := by
      unfold rnd_pick
      rw [if_pos ⟨by omega, by omega⟩]
    rw [hpick, Int.toNat_ofNat, List.getElem?_eq_getElem hi, hget] at hidx
    have hpq : q = p := Option.some.inj hidx
    subst hpq
    refine ⟨rnd_pick i, rnd_pick_contract i, _, h, changed q _ he (kind_ne _), ?_⟩
    intro row col hne
    simp only [Grid.write, if_neg hne]

theorem spawn_places_one_tile_witness :
    state_bag_ahead.spawn_timer ≥ state_bag_ahead.spawn_time_sec ∧
    (∃ (s' : GameState) (p : v2), spawn_phase rnd_lo state_bag_ahead = .ok s' ∧
      in_bounds p.row p.col ∧ (state_bag_ahead.map p.row p.col).type = TILE_EMPTY ∧
      ¬(state_bag_ahead.santa.row = p.row ∧ state_bag_ahead.santa.col = p.col) ∧
      s'.map p.row p.col =
        Tile.of_type (if rnd_lo 1 100 ≤ 50 then TILE_GIFT else TILE_HOUSE) ∧
      s'.map p.row p.col ≠ state_bag_ahead.map p.row p.col ∧
      ∀ row col, ¬(row = p.row ∧ col = p.col) →
        s'.map row col = state_bag_ahead.map row col) :=
  have hfire : state_bag_ahead.spawn_timer ≥ state_bag_ahead.spawn_time_sec := by
    norm_num [state_bag_ahead, SPAWN_TIME_SEC_START]
  ⟨hfire,
    (spawn_places_one_tile rnd_lo rnd_lo_contract state_bag_ahead hfire
      ⟨0, 0, by decide, by decide, by decide⟩).1⟩

/-! ## The spawn phase without an eligible cell -/

theorem empty_tiles_nil (s : GameState)
    (h : ∀ row col, in_bounds row col → (s.map row col).type = TILE_EMPTY →
      s.santa.row = row ∧ s.santa.col = col) : empty_tiles s = [] := by
  apply List.eq_nil_iff_forall_not_mem.mpr
  intro p hp
  obtain ⟨hb, he, hs⟩ := (mem_empty_tiles s p).mp hp
  exact hs (h p.row p.col hb he)

/-- C11. When the spawn timer has set off and no cell is both `TILE_EMPTY` and
different from the cell santa stands on, the spawn phase completes, leaves
every cell of the array as it was, sets `spawn_timer` to 0 and still shrinks
`spawn_time_sec` to `max (0.99 * spawn_time_sec) 0.5`; and when the spawn timer
has not set off, the spawn phase changes nothing at all. -/
theorem spawn_without_room (rnd : Int → Int → Int) (s : GameState) :
    (s.spawn_timer ≥ s.spawn_time_sec →
      (∀ row col, in_bounds row col → (s.map row col).type = TILE_EMPTY →
        s.santa.row = row ∧ s.santa.col = col) →
      ∃ s', spawn_phase rnd s = .ok s' ∧ s'.map = s.map ∧ s'.spawn_timer = 0 ∧
        s'.spawn_time_sec = max (99 / 100 * s.spawn_time_sec) (1 / 2)) ∧
    (s.spawn_timer < s.spawn_time_sec → spawn_phase rnd s = .ok s) := by
  constructor
  · intro hfire hfull
    have he := empty_tiles_nil s hfull
    have hs : spawn_phase rnd s = .ok
        { s with
          spawn_time_sec := max (s.spawn_time_sec -
            SPAWN_TIME_DIFFICULTY_COEFFICIENT * s.spawn_time_sec) MIN_SPAWN_TIME_SEC
          spawn_timer := 0 } := by
      unfold spawn_phase spawn_tile
      simp only [hfire, he, if_true, List.length_nil, gt_iff_lt, lt_self_iff_false, if_false,
        bind, Except.bind, pure, Except.pure]
    refine ⟨_, hs, rfl, rfl, ?_⟩
    show max (s.spawn_time_sec - 1 / 100 * s.spawn_time_sec) (1 / 2) = _
    congr 1
    ring
  · intro hlt
    unfold spawn_phase
    simp only [ge_iff_le, not_le.mpr hlt, if_false, pure, Except.pure]

theorem spawn_without_room_witness :
    state_full_grid.spawn_timer ≥ state_full_grid.spawn_time_sec ∧
    (∃ s', spawn_phase rnd_lo state_full_grid = .ok s' ∧ s'.map = state_full_grid.map ∧
      s'.spawn_timer = 0 ∧ s'.spawn_time_sec = 99 / 50) ∧
    state_one_bag.spawn_timer < state_one_bag.spawn_time_sec ∧
    spawn_phase rnd_lo state_one_bag = .ok state_one_bag := by
  have hfire : state_full_grid.spawn_timer ≥ state_full_grid.spawn_time_sec := by
    norm_num [state_full_grid, SPAWN_TIME_SEC_START]
  have hlt : state_one_bag.spawn_timer < state_one_bag.spawn_time_sec := by
    norm_num [state_one_bag, SPAWN_TIME_SEC_START]
  obtain ⟨s', h1, h2, h3, h4⟩ := (spawn_without_room rnd_lo state_full_grid).1 hfire
    (fun row col _ he => absurd he (by simp [state_full_grid, Tile.of_type]))
  refine ⟨hfire, ⟨s', h1, h2, h3, ?_⟩, hlt, (spawn_without_room rnd_lo state_one_bag).2 hlt⟩
  rw [h4]
  norm_num [state_full_grid, SPAWN_TIME_SEC_START]

/-! ## The chain under writes to the array -/

theorem chain_from_congr (m m' : Grid) (n : Nat) (p : v2)
    (h : ∀ q ∈ chain_from m n p, prev_cell m' q = prev_cell m q) :
    chain_from m' n p = chain_from m n p := by
  induction n generalizing p with
  | zero => rfl
  | succ k ih =>
    have hp : prev_cell m' p = prev_cell m p := h p (by simp [chain_from])
    simp only [chain_from, hp]
    rw [ih]
    intro q hq
    exact h q (by simp [chain_from, hq])

theorem chain_from_extend (m m' : Grid) (n : Nat) (p f o : v2)
    (hnd : (chain_from m (n + 1) p).Nodup)
    (hlast : (chain_from m (n + 1) p).getLast? = some f)
    (hsame : ∀ q ∈ chain_from m (n + 1) p, q ≠ f → prev_cell m' q = prev_cell m q)
    (hf : prev_cell m' f = o) :
    chain_from m' (n + 2) p = chain_from m (n + 1) p ++ [o] := by
  induction n generalizing p with
  | zero =>
    have hpf : p = f := by simpa [chain_from] using hlast
    subst hpf
    simp [chain_from, hf]
  | succ k ih =>
    have hch : chain_from m (k + 2) p = p :: chain_from m (k + 1) (prev_cell m p) := rfl
    have hch2 : chain_from m (k + 1) (prev_cell m p) =
        prev_cell m p :: chain_from m k (prev_cell m (prev_cell m p)) := rfl
    rw [hch] at hnd hlast hsame
    have hnd2 := List.nodup_cons.mp hnd
    have hlast2 : (chain_from m (k + 1) (prev_cell m p)).getLast? = some f := by
      rw [hch2] at hlast ⊢
      rw [List.getLast?_cons_cons] at hlast
      exact hlast
    have hpf : p ≠ f := by
      intro he
      have := List.mem_of_getLast?_eq_some hlast2
      rw [← he] at this
      exact hnd2.1 this
    have hp : prev_cell m' p = prev_cell m p := hsame p (List.mem_cons_self _ _) hpf
    have ih' := ih (prev_cell m p) hnd2.2 hlast2
      (fun q hq hqf => hsame q (List.mem_cons_of_mem _ hq) hqf)
    show p :: chain_from m' (k + 2) (prev_cell m' p) = _
    rw [hp, ih', hch]
    rfl

theorem chain_from_push_drop (m m2 : Grid) (n : Nat) (b f o : v2)
    (hnd : (chain_from m (n + 1) b).Nodup)
    (hlast : (chain_from m (n + 1) b).getLast? = some f)
    (ho : o ∉ chain_from m (n + 1) b)
    (hsame : ∀ q ∈ chain_from m (n + 1) b, q ≠ f → prev_cell m2 q = prev_cell m q)
    (hf : prev_cell m2 f = o) :
    chain_from (m2.write b.row b.col (Tile.of_type TILE_EMPTY)) (n + 1) (prev_cell m2 b) =
      (chain_from m (n + 1) b).tail ++ [o] := by
  have hext := chain_from_extend m m2 n b f o hnd hlast hsame hf
  have hch : chain_from m (n + 1) b = b :: chain_from m n (prev_cell m b) := rfl
  have htail : chain_from m2 (n + 1) (prev_cell m2 b) =
      (chain_from m (n + 1) b).tail ++ [o] := by
    have h2 : chain_from m2 (n + 2) b = b :: chain_from m2 (n + 1) (prev_cell m2 b) := rfl
    rw [h2, hch] at hext
    rw [hch]
    exact List.tail_eq_of_cons_eq hext
  rw [← htail]
  apply chain_from_congr
  intro q hq
  rw [htail, hch] at hq
  have hqb : q ≠ b := by
    rw [hch] at hnd ho
    rcases List.mem_append.mp hq with h | h
    · intro he
      rw [he] at h
      exact (List.nodup_cons.mp hnd).1 h
    · intro he
      have : q = o := by simpa using h
      rw [this] at he
      exact ho (by rw [he]; exact List.mem_cons_self _ _)
  simp only [prev_cell, write_at, if_neg hqb]

theorem chain_inv_of_list (s : GameState) (l : List v2) (hch : chain s = l)
    (h0 : 0 ≤ s.num_bags) (hnd : l.Nodup) (hb : bag_cells s.map = l.toFinset)
    (hl : 0 < s.num_bags → l.getLast? = some s.first_bag) : chain_inv s := by
  refine ⟨h0, by rw [hch]; exact hnd, ?_, ?_, by rw [hch]; exact hl⟩
  · intro p hp
    rw [hch] at hp
    have : p ∈ bag_cells s.map := by rw [hb]; exact List.mem_toFinset.mpr hp
    exact (mem_bag_cells _ _).mp this
  · intro row col hbnd ht
    have : (⟨row, col⟩ : v2) ∈ bag_cells s.map := (mem_bag_cells _ _).mpr ⟨hbnd, ht⟩
    rw [hb] at this
    rw [hch]
    exact List.mem_toFinset.mp this

theorem chain_inv_congr (s s2 : GameState) (hm : s2.map = s.map)
    (hn : s2.num_bags = s.num_bags) (hf : s2.first_bag = s.first_bag)
    (hl : s2.last_bag = s.last_bag) (hc : chain_inv s) : chain_inv s2 := by
  unfold chain_inv chain at *
  rw [hm, hn, hf, hl]
  exact hc

theorem shifted_list (b o : v2) (T : List v2) (hnd : (b :: T).Nodup) (ho : o ∉ b :: T) :
    (T ++ [o]).Nodup ∧ (T ++ [o]).toFinset = insert o ((b :: T).toFinset.erase b) ∧
    (T ++ [o]).getLast? = some o := by
  obtain ⟨hb, hT⟩ := List.nodup_cons.mp hnd
  have hoT : o ∉ T := fun h => ho (List.mem_cons_of_mem _ h)
  refine ⟨?_, ?_, List.getLast?_concat _⟩
  · rw [List.nodup_append]
    refine ⟨hT, List.nodup_singleton _, ?_⟩
    intro x hx hx2
    rw [List.mem_singleton] at hx2
    exact hoT (hx2 ▸ hx)
  · ext x
    simp only [List.toFinset_append, List.toFinset_cons, List.toFinset_nil, Finset.mem_union,
      List.mem_toFinset, Finset.mem_insert, Finset.mem_erase, ne_eq, insert_emptyc_eq,
      Finset.mem_singleton]
    constructor
    · rintro (h | h)
      · right
        refine ⟨?_, Or.inr h⟩
        rintro rfl
        exact hb h
      · exact Or.inl h
    · rintro (h | ⟨h1, h2 | h2⟩)
      · exact Or.inr h
      · exact absurd h2 h1
      · exact Or.inl h2

theorem extended_list (o : v2) (C : List v2) (hnd : C.Nodup) (ho : o ∉ C) :
    (C ++ [o]).Nodup ∧ (C ++ [o]).toFinset = insert o C.toFinset ∧
    (C ++ [o]).getLast? = some o := by
  refine ⟨?_, ?_, List.getLast?_concat _⟩
  · rw [List.nodup_append]
    refine ⟨hnd, List.nodup_singleton _, ?_⟩
    intro x hx hx2
    rw [List.mem_singleton] at hx2
    exact ho (hx2 ▸ hx)
  · ext x
    simp only [List.toFinset_append, List.toFinset_cons, List.toFinset_nil, Finset.mem_union,
      List.mem_toFinset, Finset.mem_insert, insert_emptyc_eq, Finset.mem_singleton]
    tauto

theorem santa_not_on_chain (s : GameState) (hw : well_formed s) : s.santa ∉ chain s := by
  intro h
  exact hw.2.1 (hw.2.2.2.2.1 _ h).2

theorem chain_eq_from (s : GameState) (h : 0 < s.num_bags) :
    ∃ n, s.num_bags.toNat = n + 1 ∧ chain s = chain_from s.map (n + 1) s.last_bag := by
  refine ⟨s.num_bags.toNat - 1, by omega, ?_⟩
  unfold chain
  congr 1
  omega

/-! ## The chain invariant after each branch of the tile switch -/

theorem tile_empty_inv (s : GameState) (hw : well_formed s) (hL : 0 < s.num_bags) :
    chain_inv
      { move_santa s with
        map := ((s.map.write s.santa.row s.santa.col (Tile.of_type TILE_BAG)).write
          s.first_bag.row s.first_bag.col ⟨TILE_BAG, s.santa.row, s.santa.col⟩).write
          s.last_bag.row s.last_bag.col (Tile.of_type TILE_EMPTY)
        first_bag := s.santa
        last_bag := prev_cell ((s.map.write s.santa.row s.santa.col (Tile.of_type TILE_BAG)).write
          s.first_bag.row s.first_bag.col ⟨TILE_BAG, s.santa.row, s.santa.col⟩) s.last_bag } := by
  obtain ⟨n, hn, hch⟩ := chain_eq_from s hL
  have hc := hw.2.2
  obtain ⟨h0, hnd, hmem, _, hlast⟩ := hc
  have hso := santa_not_on_chain s hw
  have hnb := (move_santa_frame s).1
  rw [hch] at hnd hmem hso
  have hl := hlast hL
  rw [hch] at hl
  have hcons : chain_from s.map (n + 1) s.last_bag =
      s.last_bag :: chain_from s.map n (prev_cell s.map s.last_bag) := rfl
  obtain ⟨l1, l2, l3⟩ := shifted_list s.last_bag s.santa _ (hcons ▸ hnd) (hcons ▸ hso)
  apply chain_inv_of_list _ ((chain_from s.map (n + 1) s.last_bag).tail ++ [s.santa])
  · show chain_from _ (move_santa s).num_bags.toNat _ = _
    rw [hnb, hn]
    apply chain_from_push_drop s.map _ n s.last_bag s.first_bag s.santa hnd hl hso
    · intro q hq hqf
      have hqs : q ≠ s.santa := fun he => hso (he ▸ hq)
      simp only [prev_cell, write_at, if_neg hqf, if_neg hqs]
    · simp only [prev_cell, write_at, if_true]
  · show 0 ≤ (move_santa s).num_bags
    rw [hnb]
    exact h0
  · rw [hcons]
    exact l1
  · show bag_cells _ = _
    rw [bag_cells_empty_shift s hw hL, bag_cells_eq_chain s hw.2.2, hch, hcons]
    exact l2.symm
  · intro _
    rw [hcons]
    exact l3

theorem bag_cells_gift (s : GameState) (hw : well_formed s) (ht : target_type s = TILE_GIFT) :
    bag_cells ((s.map.write (move_santa s).santa.row (move_santa s).santa.col
        (Tile.of_type TILE_EMPTY)).write s.santa.row s.santa.col (Tile.of_type TILE_BAG)) =
      insert s.santa (bag_cells s.map) ∧
    (0 < s.num_bags →
      bag_cells (((s.map.write (move_santa s).santa.row (move_santa s).santa.col
        (Tile.of_type TILE_EMPTY)).write s.santa.row s.santa.col
        (Tile.of_type TILE_BAG)).write s.first_bag.row s.first_bag.col
        ⟨TILE_BAG, s.santa.row, s.santa.col⟩) = insert s.santa (bag_cells s.map)) := by
  obtain ⟨hsb, hsn, hc⟩ := hw
  unfold target_type at ht
  constructor
  · ext p
    simp only [mem_bag_cells, Finset.mem_insert, write_at]
    by_cases h1 : p = s.santa
    · subst h1
      simp [hsb, Tile.of_type]
    · by_cases h2 : p = (move_santa s).santa
      · subst h2
        simp [h1, ht, Tile.of_type]
      · simp [h1, h2]
  · intro hL
    obtain ⟨_, ⟨hfb, hft⟩⟩ := chain_ends s hc hL
    have hfs := ne_of_type_ne s.map _ _ hft hsn
    ext p
    simp only [mem_bag_cells, Finset.mem_insert, write_at]
    by_cases h0 : p = s.first_bag
    · subst h0
      simp [hfs, hfb, hft]
    · by_cases h1 : p = s.santa
      · subst h1
        simp [h0, hsb, Tile.of_type]
      · by_cases h2 : p = (move_santa s).santa
        · subst h2
          simp [h0, h1, ht, Tile.of_type]
        · simp [h0, h1, h2]

theorem tile_gift_inv (s : GameState) (hw : well_formed s) (ht : target_type s = TILE_GIFT) :
    chain_inv
      (if s.num_bags ≤ 0 then
        { move_santa s with
          map := (s.map.write (move_santa s).santa.row (move_santa s).santa.col
            (Tile.of_type TILE_EMPTY)).write s.santa.row s.santa.col (Tile.of_type TILE_BAG)
          first_bag := s.santa
          last_bag := s.santa
          num_bags := s.num_bags + 1 }
      else
        { move_santa s with
          map := ((s.map.write (move_santa s).santa.row (move_santa s).santa.col
            (Tile.of_type TILE_EMPTY)).write s.santa.row s.santa.col
            (Tile.of_type TILE_BAG)).write s.first_bag.row s.first_bag.col
            ⟨TILE_BAG, s.santa.row, s.santa.col⟩
          first_bag := s.santa
          num_bags := s.num_bags + 1 }) := by
  obtain ⟨hb0, hb1⟩ := bag_cells_gift s hw ht
  have hc := hw.2.2
  have hso := santa_not_on_chain s hw
  have hlb := (move_santa_frame s).2.2.1
  have htt : (s.map (move_santa s).santa.row (move_santa s).santa.col).type = TILE_GIFT := ht
  split
  · rename_i hz
    have hz0 : s.num_bags = 0 := le_antisymm hz hc.1
    have hnil : chain s = [] := by
      unfold chain
      rw [hz0]
      rfl
    apply chain_inv_of_list _ [s.santa]
    · show chain_from _ (s.num_bags + 1).toNat s.santa = _
      rw [hz0]
      rfl
    · show 0 ≤ s.num_bags + 1
      omega
    · exact List.nodup_singleton _
    · show bag_cells _ = _
      rw [hb0, bag_cells_eq_chain s hc, hnil]
      rfl
    · intro _
      rfl
  · rename_i hz
    have hL : 0 < s.num_bags := by omega
    obtain ⟨n, hn, hch⟩ := chain_eq_from s hL
    obtain ⟨_, hnd, hmem, _, hlast⟩ := hc
    have hl := hlast hL
    rw [hch] at hnd hmem hso hl
    obtain ⟨l1, l2, l3⟩ := extended_list s.santa _ hnd hso
    apply chain_inv_of_list _ (chain_from s.map (n + 1) s.last_bag ++ [s.santa])
    · show chain_from _ (s.num_bags + 1).toNat (move_santa s).last_bag = _
      have : (s.num_bags + 1).toNat = n + 2 := by omega
      rw [this, hlb]
      apply chain_from_extend s.map _ n s.last_bag s.first_bag s.santa hnd hl
      · intro q hq hqf
        have hqs : q ≠ s.santa := fun he => hso (he ▸ hq)
        have hqt : q ≠ (move_santa s).santa := by
          intro he
          have := (hmem q hq).2
          rw [he, htt] at this
          exact absurd this (by decide)
        simp only [prev_cell, write_at, if_neg hqf, if_neg hqs, if_neg hqt]
      · simp only [prev_cell, write_at, if_true]
    · show 0 ≤ s.num_bags + 1
      omega
    · exact l1
    · show bag_cells _ = _
      rw [hb1 hL, bag_cells_eq_chain s hw.2.2, hch]
      exact l2.symm
    · intro _
      exact l3

theorem toFinset_erase_head (b : v2) (T : List v2) (hnd : (b :: T).Nodup) :
    (b :: T).toFinset.erase b = T.toFinset := by
  have hb := (List.nodup_cons.mp hnd).1
  ext x
  simp only [List.toFinset_cons, Finset.mem_erase, Finset.mem_insert, List.mem_toFinset, ne_eq]
  constructor
  · rintro ⟨h1, h2 | h2⟩
    · exact absurd h2 h1
    · exact h2
  · intro h
    refine ⟨?_, Or.inr h⟩
    rintro rfl
    exact hb h

theorem tile_house_one_inv (s : GameState) (hw : well_formed s) (hL : s.num_bags = 1)
    (ht : target_type s = TILE_HOUSE) :
    chain_inv
      { move_santa s with
        map := (s.map.write (move_santa s).santa.row (move_santa s).santa.col
          (Tile.of_type TILE_EMPTY)).write s.last_bag.row s.last_bag.col
          (Tile.of_type TILE_EMPTY)
        num_bags := s.num_bags - 1 } := by
  obtain ⟨n, hn, hch⟩ := chain_eq_from s (by omega)
  have hn0 : n = 0 := by omega
  subst hn0
  apply chain_inv_of_list _ []
  · show chain_from _ (s.num_bags - 1).toNat _ = _
    rw [hL]
    rfl
  · show 0 ≤ s.num_bags - 1
    omega
  · exact List.nodup_nil
  · show bag_cells _ = _
    rw [bag_cells_house_one s ht, bag_cells_eq_chain s hw.2.2, hch]
    simp [chain_from]
  · intro h
    have : (0 : Int) < s.num_bags - 1 := h
    omega

theorem tile_house_more_inv (s : GameState) (hw : well_formed s) (hL : 2 ≤ s.num_bags)
    (ht : target_type s = TILE_HOUSE) :
    chain_inv
      { move_santa s with
        map := (((((s.map.write (move_santa s).santa.row (move_santa s).santa.col
          (Tile.of_type TILE_EMPTY)).write s.last_bag.row s.last_bag.col
          (Tile.of_type TILE_EMPTY)).write s.santa.row s.santa.col
          (Tile.of_type TILE_BAG)).write s.first_bag.row s.first_bag.col
          ⟨TILE_BAG, s.santa.row, s.santa.col⟩).write
          (prev_cell s.map s.last_bag).row (prev_cell s.map s.last_bag).col
          (Tile.of_type TILE_EMPTY))
        first_bag := s.santa
        last_bag := prev_cell ((((s.map.write (move_santa s).santa.row (move_santa s).santa.col
          (Tile.of_type TILE_EMPTY)).write s.last_bag.row s.last_bag.col
          (Tile.of_type TILE_EMPTY)).write s.santa.row s.santa.col
          (Tile.of_type TILE_BAG)).write s.first_bag.row s.first_bag.col
          ⟨TILE_BAG, s.santa.row, s.santa.col⟩) (prev_cell s.map s.last_bag)
        num_bags := s.num_bags - 1 } := by
  obtain ⟨n, hn, hch⟩ := chain_eq_from s (by omega)
  obtain ⟨k, rfl⟩ : ∃ k, n = k + 1 := ⟨n - 1, by omega⟩
  have hc := hw.2.2
  obtain ⟨_, hnd, hmem, _, hlast⟩ := hc
  have hso := santa_not_on_chain s hw
  have hl := hlast (by omega)
  have htt : (s.map (move_santa s).santa.row (move_santa s).santa.col).type = TILE_HOUSE := ht
  have hcons : chain_from s.map (k + 2) s.last_bag =
      s.last_bag :: chain_from s.map (k + 1) (prev_cell s.map s.last_bag) := rfl
  have hcons2 : chain_from s.map (k + 1) (prev_cell s.map s.last_bag) =
      prev_cell s.map s.last_bag ::
        chain_from s.map k (prev_cell s.map (prev_cell s.map s.last_bag)) := rfl
  rw [hch, hcons] at hnd hmem hso hl
  obtain ⟨hb1, hnd2⟩ := List.nodup_cons.mp hnd
  have hso2 : s.santa ∉ chain_from s.map (k + 1) (prev_cell s.map s.last_bag) :=
    fun h => hso (List.mem_cons_of_mem _ h)
  have hl2 : (chain_from s.map (k + 1) (prev_cell s.map s.last_bag)).getLast? =
      some s.first_bag := by
    rw [hcons2] at hl ⊢
    rw [List.getLast?_cons_cons] at hl
    exact hl
  obtain ⟨l1, l2, l3⟩ := shifted_list (prev_cell s.map s.last_bag) s.santa _
    (hcons2 ▸ hnd2) (hcons2 ▸ hso2)
  apply chain_inv_of_list _
    ((chain_from s.map (k + 1) (prev_cell s.map s.last_bag)).tail ++ [s.santa])
  · show chain_from _ (s.num_bags - 1).toNat _ = _
    have : (s.num_bags - 1).toNat = k + 1 := by omega
    rw [this]
    apply chain_from_push_drop s.map _ k (prev_cell s.map s.last_bag) s.first_bag s.santa
      hnd2 hl2 hso2
    · intro q hq hqf
      have hqs : q ≠ s.santa := fun he => hso2 (he ▸ hq)
      have hql : q ≠ s.last_bag := fun he => hb1 (he ▸ hq)
      have hqt : q ≠ (move_santa s).santa := by
        intro he
        have := (hmem q (List.mem_cons_of_mem _ hq)).2
        rw [he, htt] at this
        exact absurd this (by decide)
      simp only [prev_cell, write_at, if_neg hqf, if_neg hqs, if_neg hql, if_neg hqt]
    · simp only [prev_cell, write_at, if_true]
  · show 0 ≤ s.num_bags - 1
    omega
  · rw [hcons2]
    exact l1
  · show bag_cells _ = _
    rw [bag_cells_house_more s hw hL ht, bag_cells_eq_chain s hw.2.2, hch, hcons,
      toFinset_erase_head _ _ hnd, hcons2]
    exact l2.symm
  · intro _
    rw [hcons2]
    exact l3

theorem tile_empty_none_ok (s : GameState)
    (hb : in_bounds (move_santa s).santa.row (move_santa s).santa.col)
    (hn : s.num_bags ≤ 0) (ht : target_type s = TILE_EMPTY) :
    tile_phase s.santa (move_santa s) = .ok (move_santa s) := by
  unfold tile_phase
  unfold target_type at ht
  rw [target_get s hb]
  have h0 : ¬s.num_bags > 0 := not_lt.mpr hn
  simp only [bind, Except.bind, ht, (move_santa_frame s).1, h0, if_false, pure, Except.pure]

theorem spawn_keeps_chain_inv (s2 s' : GameState) (hn : s'.num_bags = s2.num_bags)
    (hf : s'.first_bag = s2.first_bag) (hl : s'.last_bag = s2.last_bag)
    (h : ∀ row col, s'.map row col = s2.map row col ∨
        ((s2.map row col).type = TILE_EMPTY ∧ ¬(s2.santa.row = row ∧ s2.santa.col = col) ∧
          (s'.map row col = Tile.of_type TILE_GIFT ∨
            s'.map row col = Tile.of_type TILE_HOUSE)))
    (hc : chain_inv s2) : chain_inv s' := by
  have hbag : bag_cells s'.map = bag_cells s2.map := by
    apply spawn_keeps_bags
    intro row col
    rcases h row col with h1 | ⟨h1, _, h2⟩
    · exact Or.inl h1
    · exact Or.inr ⟨h1, h2⟩
  have hch : chain s' = chain s2 := by
    unfold chain
    rw [hn, hl]
    apply chain_from_congr
    intro q hq
    have hq2 : (s2.map q.row q.col).type = TILE_BAG := (hc.2.2.1 q hq).2
    have : s'.map q.row q.col = s2.map q.row q.col :=
      spawn_keeps_non_empty s2 s' _ _ (by rw [hq2]; decide) h
    simp only [prev_cell, this]
  apply chain_inv_of_list s' (chain s2) hch
  · rw [hn]
    exact hc.1
  · exact hc.2.1
  · rw [hbag]
    exact bag_cells_eq_chain s2 hc
  · intro hp
    rw [hf]
    exact hc.2.2.2.2 (by rw [← hn]; exact hp)

theorem tile_phase_total (s : GameState) (hw : well_formed s) :
    ∃ s2, tile_phase s.santa (move_santa s) = .ok s2 ∧ chain_inv s2 ∧
      s2.santa = (move_santa s).santa ∧
      (target_type s ≠ TILE_BAG → (s2.map s2.santa.row s2.santa.col).type ≠ TILE_BAG) ∧
      (target_type s = TILE_BAG → s2.game_over = true) := by
  have hsb := hw.1
  have hc := hw.2.2
  have htb := move_santa_in_bounds s hsb
  have hne := move_santa_ne_v2 s
  obtain ⟨hnb, hfirst, hlast, _⟩ := move_santa_frame s
  have hmap := move_santa_map s
  have hkeep : chain_inv (move_santa s) := chain_inv_congr s _ hmap hnb hfirst hlast hc
  cases ht : target_type s with
  | TILE_EMPTY =>
    have htt : (s.map (move_santa s).santa.row (move_santa s).santa.col).type = TILE_EMPTY := ht
    by_cases hL : 0 < s.num_bags
    · refine ⟨_, tile_empty_ok s hw hL ht, tile_empty_inv s hw hL, rfl, ?_, ?_⟩
      · intro _
        obtain ⟨⟨_, hlt⟩, ⟨_, hft⟩⟩ := chain_ends s hc hL
        have h1 : (move_santa s).santa ≠ s.last_bag := by
          intro he
          rw [he, hlt] at htt
          exact absurd htt (by decide)
        have h2 : (move_santa s).santa ≠ s.first_bag := by
          intro he
          rw [he, hft] at htt
          exact absurd htt (by decide)
        simp only [write_at, if_neg h1, if_neg h2, if_neg hne, htt]
        decide
      · intro h
        exact absurd h (by decide)
    · refine ⟨_, tile_empty_none_ok s htb (not_lt.mp hL) ht, hkeep, rfl, ?_, ?_⟩
      · intro _
        rw [hmap, htt]
        decide
      · intro h
        exact absurd h (by decide)
  | TILE_GIFT =>
    have htt : (s.map (move_santa s).santa.row (move_santa s).santa.col).type = TILE_GIFT := ht
    refine ⟨_, tile_gift_ok s hw ht, tile_gift_inv s hw ht, ?_, ?_, ?_⟩
    · split <;> rfl
    · intro _
      split
      · simp [write_at, hne, Tile.of_type]
      · rename_i h0
        obtain ⟨_, ⟨_, hft⟩⟩ := chain_ends s hc (by omega)
        have hf : (move_santa s).santa ≠ s.first_bag := by
          intro he
          rw [he, hft] at htt
          exact absurd htt (by decide)
        simp [write_at, hne, hf, Tile.of_type]
    · intro h
      exact absurd h (by decide)
  | TILE_BAG =>
    refine ⟨_, tile_bag_ok s htb ht, ?_, rfl, fun h => absurd rfl h, fun _ => rfl⟩
    exact chain_inv_congr s _ hmap hnb hfirst hlast hc
  | TILE_HOUSE =>
    have htt : (s.map (move_santa s).santa.row (move_santa s).santa.col).type = TILE_HOUSE := ht
    by_cases h0 : s.num_bags ≤ 0
    · refine ⟨_, tile_house_none_ok s htb h0 ht, ?_, rfl, ?_, ?_⟩
      · exact chain_inv_congr s _ hmap hnb hfirst hlast hc
      · intro _
        show ((move_santa s).map _ _).type ≠ TILE_BAG
        rw [hmap, htt]
        decide
      · intro h
        exact absurd h (by decide)
    · obtain ⟨⟨_, hlt⟩, ⟨_, hft⟩⟩ := chain_ends s hc (by omega)
      have htl : (move_santa s).santa ≠ s.last_bag := by
        intro he
        rw [he, hlt] at htt
        exact absurd htt (by decide)
      by_cases h1 : s.num_bags = 1
      · refine ⟨_, tile_house_one_ok s hw h1 ht, tile_house_one_inv s hw h1 ht, rfl, ?_, ?_⟩
        · intro _
          simp [write_at, htl, Tile.of_type]
        · intro h
          exact absurd h (by decide)
      · have h2 : 2 ≤ s.num_bags := by omega
        refine ⟨_, tile_house_more_ok s hw h2 ht, tile_house_more_inv s hw h2 ht, rfl, ?_, ?_⟩
        · intro _
          obtain ⟨⟨_, hb2t⟩, _⟩ := chain_two s hc h2
          have ht2 : (move_santa s).santa ≠ prev_cell s.map s.last_bag := by
            intro he
            rw [he, hb2t] at htt
            exact absurd htt (by decide)
          have htf : (move_santa s).santa ≠ s.first_bag := by
            intro he
            rw [he, hft] at htt
            exact absurd htt (by decide)
          simp [write_at, ht2, htf, hne, htl, Tile.of_type]
        · intro h
          exact absurd h (by decide)

/-! ## The start of a round -/

/-- C12, the code at the failing input.  `state_mid_round` is a state of a
running round (`game_over` is false), as the main loop hands to
`init_game_state` on every frame.  The state that comes back is the same
state: the bag is still on (0,0), `num_bags` is still 1, the spawn time is
still 99/50 and not `SPAWN_TIME_SEC_START`, the spawn timer is still 1/4 and
not 0. -/
theorem init_game_state_resets_nothing :
    state_mid_round.game_over = false ∧
    init_game_state state_mid_round = state_mid_round ∧
    ((init_game_state state_mid_round).map 0 0).type = TILE_BAG ∧
    ((init_game_state state_mid_round).map 0 0).type ≠ TILE_EMPTY ∧
    (init_game_state state_mid_round).num_bags = 1 ∧
    (init_game_state state_mid_round).num_bags ≠ 0 ∧
    (init_game_state state_mid_round).spawn_time_sec = 99 / 50 ∧
    (init_game_state state_mid_round).spawn_time_sec ≠ SPAWN_TIME_SEC_START ∧
    (init_game_state state_mid_round).spawn_timer = 1 / 4 ∧
    (init_game_state state_mid_round).spawn_timer ≠ 0 := by
  refine ⟨rfl, rfl, by decide, by decide, rfl, by decide, rfl, ?_, rfl, ?_⟩
  · norm_num [init_game_state, state_mid_round, SPAWN_TIME_SEC_START]
  · norm_num [init_game_state, state_mid_round]

/-! ## The end of a round -/

theorem input_pass_game_over (keyboard : Keyboard) (s : GameState) :
    (input_pass keyboard s).game_over = s.game_over := by
  unfold input_pass
  lift_lets
  intro s1 s2 s3
  have h1 : s1.game_over = s.game_over := by
    simp only [s1]
    split <;> [split <;> rfl; rfl]
  have h2 : s2.game_over = s1.game_over := by
    simp only [s2]
    split <;> [split <;> rfl; rfl]
  have h3 : s3.game_over = s2.game_over := by
    simp only [s3]
    split <;> [split <;> rfl; rfl]
  rw [← h1, ← h2, ← h3]
  split <;> [split <;> rfl; rfl]

theorem scene_update_game_over (f : Frame) (scene scene' : GameScene)
    (h : GameScene.update f.rnd f.keyboard f.dt_sec scene = .ok scene')
    (hg : scene.m_game_state.game_over = true) :
    scene'.m_game_state.game_over = true := by
  unfold GameScene.update at h
  by_cases ht : scene.m_tick_timer ≥ SEC_PER_TICK
  · simp only [ht, if_true] at h
    cases hu : update_game_state f.rnd (input_pass f.keyboard scene.m_game_state) with
    | error e => simp [hu, bind, Except.bind] at h
    | ok after =>
      simp only [hu, bind, Except.bind, pure, Except.pure] at h
      cases h
      exact (update_frame _ _ _ hu).2.1 (by rw [input_pass_game_over]; exact hg)
  · simp only [ht, if_false, bind, Except.bind, pure, Except.pure] at h
    cases h
    simp only [input_pass_game_over]
    exact hg

theorem default_state_wf : well_formed default_state :=
  well_formed_of_cells _ (by decide) (by decide) (by decide) (by decide) (by decide)
    (by decide) (by decide)

/-- C13. When `game_over` is true before `update_game_state`, it is true in
the state the call returns, for every state, direction and random draws; so
along a run of frames of `GameScene::update` it never goes from true back to
false. -/
theorem game_over_is_one_way :
    (∀ (rnd : Int → Int → Int) (s s' : GameState),
      update_game_state rnd s = .ok s' → s.game_over = true → s'.game_over = true) ∧
    (∀ (frames : List Frame) (scene scene' : GameScene),
      run_frames frames scene = .ok scene' → scene.m_game_state.game_over = true →
        scene'.m_game_state.game_over = true) := by
  constructor
  · intro rnd s s' h hg
    exact (update_frame rnd s s' h).2.1 hg
  · intro frames
    induction frames with
    | nil =>
      intro scene scene' h hg
      simp only [run_frames, pure, Except.pure] at h
      cases h
      exact hg
    | cons f rest ih =>
      intro scene scene' h hg
      unfold run_frames at h
      cases hu : GameScene.update f.rnd f.keyboard f.dt_sec scene with
      | error e => simp [hu, bind, Except.bind] at h
      | ok next =>
        simp only [hu, bind, Except.bind] at h
        exact ih next scene' h (scene_update_game_over f scene next hu hg)

theorem game_over_is_one_way_witness :
    default_state.game_over = true ∧
    ∃ s', update_game_state rnd_lo default_state = .ok s' ∧ s'.game_over = true := by
  obtain ⟨s2, h2, _⟩ := tile_phase_total default_state default_state_wf
  obtain ⟨s', h, _⟩ := update_of_tile rnd_lo rnd_lo_contract default_state s2 h2
  exact ⟨rfl, s', h, game_over_is_one_way.1 rnd_lo default_state s' h rfl⟩

/-! ## The chain invariant and totality over a whole tick -/

/-- C14. From a state that satisfies the chain invariant, with santa in the
array and not on a bag, a tick in any direction and for any random draws
completes in a state that satisfies the chain invariant again, with santa in
the array; santa then stands on a `TILE_BAG` cell only when the tick moved him
onto one, and in that case `game_over` is true. -/
theorem tick_preserves_chain_inv (rnd : Int → Int → Int) (hr : random_int_contract rnd)
    (s : GameState) (hw : well_formed s) :
    ∃ s', update_game_state rnd s = .ok s' ∧ chain_inv s' ∧
      in_bounds s'.santa.row s'.santa.col ∧
      (target_type s ≠ TILE_BAG → (s'.map s'.santa.row s'.santa.col).type ≠ TILE_BAG) ∧
      (target_type s = TILE_BAG → s'.game_over = true) := by
  obtain ⟨s2, h2, hc2, hs2, hn2, hg2⟩ := tile_phase_total s hw
  obtain ⟨s', h, _, a1, a2, a3, a4, a5, a6⟩ := update_of_tile rnd hr s s2 h2
  refine ⟨s', h, spawn_keeps_chain_inv s2 s' a2 a3 a4 a6 hc2, ?_, ?_, ?_⟩
  · rw [a1, hs2]
    exact move_santa_in_bounds s hw.1
  · intro ht
    rw [spawn_keeps_santa_cell s2 s' a1 a6]
    exact hn2 ht
  · intro ht
    rw [a5]
    exact hg2 ht

theorem tick_preserves_chain_inv_witness :
    well_formed state_house_three_bags ∧
    ∃ s', update_game_state rnd_lo state_house_three_bags = .ok s' ∧ chain_inv s' ∧
      in_bounds s'.santa.row s'.santa.col ∧
      (target_type state_house_three_bags ≠ TILE_BAG →
        (s'.map s'.santa.row s'.santa.col).type ≠ TILE_BAG) ∧
      (target_type state_house_three_bags = TILE_BAG → s'.game_over = true) :=
  ⟨state_house_three_bags_wf,
    tick_preserves_chain_inv rnd_lo rnd_lo_contract state_house_three_bags
      state_house_three_bags_wf⟩

/-- C15. From a state that satisfies the chain invariant, with santa in the
array and not on a bag, `update_game_state` returns a state, for each of the
four directions and for any random draws: it throws no `Error` and every
access to the array through a computed coordinate is inside the array; and the
cells the spawning loops visit are cells of the array. -/
theorem tick_is_total (rnd : Int → Int → Int) (hr : random_int_contract rnd)
    (s : GameState) (hw : well_formed s) (d : Direction) :
    (∃ s', update_game_state rnd { s with santa_direction := d } = .ok s') ∧
    (∀ e, update_game_state rnd { s with santa_direction := d } ≠ .error e) ∧
    ∀ p ∈ all_cells, in_bounds p.row p.col := by
  have hw2 : well_formed { s with santa_direction := d } := hw
  obtain ⟨s2, h2, _⟩ := tile_phase_total _ hw2
  obtain ⟨s', h, _⟩ := update_of_tile rnd hr _ s2 h2
  refine ⟨⟨s', h⟩, ?_, fun p hp => (mem_all_cells p).mp hp⟩
  intro e he
  rw [h] at he
  cases he

theorem tick_is_total_witness :
    well_formed state_gift_ahead ∧
    (∃ s', update_game_state rnd_lo
      { state_gift_ahead with santa_direction := DIRECTION_SOUTH } = .ok s') :=
  ⟨state_gift_ahead_wf,
    (tick_is_total rnd_lo rnd_lo_contract state_gift_ahead state_gift_ahead_wf
      DIRECTION_SOUTH).1⟩

/-! ## The prev pointers a pickup writes -/

theorem gift_link_cells (rnd : Int → Int → Int) (hr : random_int_contract rnd)
    (s : GameState) (hw : well_formed s) (ht : target_type s = TILE_GIFT) :
    ∃ s', update_game_state rnd s = .ok s' ∧
      s'.map s.santa.row s.santa.col = ⟨TILE_BAG, 0, 0⟩ ∧
      (0 < s.num_bags →
        s'.map s.first_bag.row s.first_bag.col = ⟨TILE_BAG, s.santa.row, s.santa.col⟩) := by
  obtain ⟨s', h1, _, _, _, _, _, _, h7⟩ := update_of_tile rnd hr s _ (tile_gift_ok s hw ht)
  refine ⟨s', h1, ?_, ?_⟩
  · rw [spawn_keeps_non_empty _ s' _ _ _ h7]
    · split
      · simp [write_at, Tile.of_type]
      · rename_i h0
        obtain ⟨_, ⟨_, hft⟩⟩ := chain_ends s hw.2.2 (by omega)
        have hsf : s.santa ≠ s.first_bag := (ne_of_type_ne s.map _ _ hft hw.2.1).symm
        simp [write_at, hsf, Tile.of_type]
    · split <;> simp [write_at, Tile.of_type]
      split <;> simp
  · intro hL
    rw [spawn_keeps_non_empty _ s' _ _ _ h7]
    · rw [if_neg (not_le.mpr hL)]
      simp [write_at]
    · rw [if_neg (not_le.mpr hL)]
      simp [write_at]

theorem state_gift_one_bag_wf : well_formed state_gift_one_bag :=
  well_formed_of_cells _ (by decide) (by decide) (by decide) (by decide) (by decide)
    (by decide) (by decide)

/-- C16, against the claim as stated.  A pickup with no bag leaves a new link
whose prev fields are (0,0), not the sentinel (-1,-1); a pickup with one bag on
(0,1) leaves a new link whose prev fields are (0,0) as well, not (0,1), the
former `first_bag`. -/
theorem gift_link_has_zero_prev :
    (∃ s', update_game_state rnd_lo state_gift_ahead = .ok s' ∧
      prev_cell s'.map state_gift_ahead.santa = ⟨0, 0⟩ ∧
      prev_cell s'.map state_gift_ahead.santa ≠ ⟨-1, -1⟩) ∧
    (∃ s', update_game_state rnd_lo state_gift_one_bag = .ok s' ∧
      prev_cell s'.map state_gift_one_bag.santa = ⟨0, 0⟩ ∧
      prev_cell s'.map state_gift_one_bag.santa ≠ state_gift_one_bag.first_bag) := by
  constructor
  · obtain ⟨s', h, h1, _⟩ := gift_link_cells rnd_lo rnd_lo_contract state_gift_ahead
      state_gift_ahead_wf (by decide)
    have hp : prev_cell s'.map state_gift_ahead.santa = ⟨0, 0⟩ := by
      simp only [prev_cell, h1]
    refine ⟨s', h, hp, ?_⟩
    rw [hp]
    decide
  · obtain ⟨s', h, h1, _⟩ := gift_link_cells rnd_lo rnd_lo_contract state_gift_one_bag
      state_gift_one_bag_wf (by decide)
    have hp : prev_cell s'.map state_gift_one_bag.santa = ⟨0, 0⟩ := by
      simp only [prev_cell, h1]
    refine ⟨s', h, hp, ?_⟩
    rw [hp]
    decide

/-- C16, as the code has it.  After a tick onto a `TILE_GIFT` cell from a
well-formed state, the new chain link on the cell santa left stores (0,0) in
`prev_row`/`prev_col`, whatever `num_bags` was; and when `num_bags` was
positive, the prev fields of the former `first_bag` cell name the cell santa
left. -/
theorem gift_link_back_pointers (rnd : Int → Int → Int) (hr : random_int_contract rnd)
    (s : GameState) (hw : well_formed s) (ht : target_type s = TILE_GIFT) :
    ∃ s', update_game_state rnd s = .ok s' ∧
      (s'.map s.santa.row s.santa.col).type = TILE_BAG ∧
      prev_cell s'.map s.santa = ⟨0, 0⟩ ∧
      (0 < s.num_bags →
        (s'.map s.first_bag.row s.first_bag.col).type = TILE_BAG ∧
        prev_cell s'.map s.first_bag = s.santa) := by
  obtain ⟨s', h, h1, h2⟩ := gift_link_cells rnd hr s hw ht
  refine ⟨s', h, ?_, ?_, ?_⟩
  · rw [h1]
  · simp only [prev_cell, h1]
  · intro hL
    have h3 := h2 hL
    constructor
    · rw [h3]
    · simp only [prev_cell, h3]

theorem gift_link_back_pointers_witness :
    well_formed state_gift_one_bag ∧ target_type state_gift_one_bag = TILE_GIFT ∧
    ∃ s', update_game_state rnd_lo state_gift_one_bag = .ok s' ∧
      (s'.map 0 2).type = TILE_BAG ∧
      prev_cell s'.map ⟨0, 2⟩ = ⟨0, 0⟩ ∧
      ((0 : Int) < 1 → (s'.map 0 1).type = TILE_BAG ∧ prev_cell s'.map ⟨0, 1⟩ = ⟨0, 2⟩) :=
  ⟨state_gift_one_bag_wf, by decide,
    gift_link_back_pointers rnd_lo rnd_lo_contract state_gift_one_bag state_gift_one_bag_wf
      (by decide)⟩

/-! ## Two keys held in one input pass -/

theorem state_facing_west_turned :
    input_pass keys_w_d state_facing_west =
      { state_facing_west with santa_direction := DIRECTION_EAST } := rfl

/-- C17, the code at the failing input.  Santa faces west with one bag on the
cell he has just left; with W and D held, the input pass first turns him north
and then, no longer seeing west, east: the exact opposite of the direction he
faced.  The tick that follows moves him onto `first_bag` and ends the game. -/
theorem two_keys_reverse_santa :
    0 < state_facing_west.num_bags ∧
    (input_pass keys_w_d state_facing_west).santa_direction =
      opposite state_facing_west.santa_direction ∧
    ∃ s', update_game_state rnd_lo (input_pass keys_w_d state_facing_west) = .ok s' ∧
      s'.santa = state_facing_west.first_bag ∧ s'.game_over = true := by
  refine ⟨by decide, by decide, ?_⟩
  rw [state_facing_west_turned]
  rw [update_eq_of_tile rnd_lo _ _
    (tile_bag_ok { state_facing_west with santa_direction := DIRECTION_EAST }
      (by decide) (by decide))]
  obtain ⟨s', h1, h2, _, _, _, h6, _⟩ := spawn_phase_spec rnd_lo rnd_lo_contract
    { move_santa { state_facing_west with santa_direction := DIRECTION_EAST } with
      game_over := true }
  refine ⟨s', h1, ?_, h6⟩
  rw [h2]
  decide

end CozyChristmas
